import Mathlib

/-!
# Verification of the Egyptair feedback system's sentiment/analytics core

This file gives a shallow embedding, in Lean 4, of the rule-based sentiment
classifier (`src/backend/app/services/sentiment_service.py`) and of the
analytics/statistics functions (`report_service.py`, `api/analytics.py`) of the
repository, and proves or refutes the specification claims about them.

Modelling conventions:

* A Python `str` is modelled as `List Char`.  The texts the model covers are
  those made of ASCII characters and characters of the Arabic Unicode block
  U+0600..U+06FF; for those, Python's `str.lower`, `\w`, `\s` and the word
  boundary `\b` agree with the executable character predicates defined below.
* Python floats are modelled as exact rationals (`ℚ`); `round(x, 1)` and
  `round(x)` are modelled by exact round-half-to-even on `ℚ`.  The Wilson score
  (computed with `math.sqrt`) is modelled over `ℝ`.
* The analyzer is modelled in its rule-based configuration: no ML pipeline is
  loaded (`ML_AVAILABLE = False` / no model loaded), which is the configuration
  all rule-based claims address; `analyze` then always takes the
  `analyze_rule_based` branch and tags `model_version = "rule-based-v2-enhanced"`.
  The diagnostic `preprocessed_text` field (never consulted by any claim and
  dependent on the optional NLTK import) is not carried in the result record.
* Python `set` literals are modelled as deduplicated lists; every use the code
  makes of these sets (membership tests and commutative score sums) is
  order-insensitive.
-/

/- Batteries marks the `Rat` arithmetic operations `@[irreducible]`, which
blocks `decide`/`rfl` evaluation of the embedded score arithmetic on concrete
inputs; restore the default reducibility for this file. -/
attribute [local semireducible] Rat.add Rat.sub Rat.mul Rat.inv

set_option maxRecDepth 100000

/-- Convert a Lean string literal to the `List Char` text representation. -/
def s2c (s : String) : List Char := s.data

/-- Python's `\s` / `str.split()` whitespace, restricted to ASCII. -/
def isSpaceChar (c : Char) : Bool :=
  c = ' ' || c = '\t' || c = '\n' || c = '\r' || c = '\x0b' || c = '\x0c'

/-- ASCII Latin letter (`[a-zA-Z]` in the Python regexes). -/
def isLatinLetter (c : Char) : Bool :=
  ('a' ≤ c && c ≤ 'z') || ('A' ≤ c && c ≤ 'Z')

/-- A character of the Arabic Unicode block `[؀-ۿ]`. -/
def isArabicChar (c : Char) : Bool :=
  0x600 ≤ c.toNat && c.toNat ≤ 0x6FF

/-- Python's `\w` (word character), over the modelled alphabet:
ASCII alphanumerics, underscore, and the Arabic block. -/
def isWordChar (c : Char) : Bool :=
  isLatinLetter c || ('0' ≤ c && c ≤ '9') || c = '_' || isArabicChar c

/-- Python's `needle in haystack` substring test on strings. -/
def isSubstring (needle : List Char) : List Char → Bool
  | [] => needle.isEmpty
  | c :: rest => needle.isPrefixOf (c :: rest) || isSubstring needle rest

/-- Accumulator pass for `runsBy`: `cur` is the reversed current run. -/
def runsByGo (p : Char → Bool) (cur : List Char) : List Char → List (List Char)
  | [] => if cur.isEmpty then [] else [cur.reverse]
  | c :: rest =>
    if p c then runsByGo p (c :: cur) rest
    else if cur.isEmpty then runsByGo p [] rest
    else cur.reverse :: runsByGo p [] rest

/-- The maximal runs of characters satisfying `p` (used for `str.split()` and
for extracting the maximal `\w`-runs that word-boundary regexes match). -/
def runsBy (p : Char → Bool) (l : List Char) : List (List Char) :=
  runsByGo p [] l

/-- `re.findall(r'\b[a-zA-Z]+\b', text)`: the maximal `\w`-runs consisting
entirely of Latin letters (a letter run adjacent to another word character has
no word boundary there, so only all-letter maximal runs match). -/
def enWords (text : List Char) : List (List Char) :=
  (runsBy isWordChar text).filter (fun r => r.all isLatinLetter)

/-- Python `str.split()` (split on whitespace, discarding empty fields). -/
def splitWs (text : List Char) : List (List Char) :=
  runsBy (fun c => !isSpaceChar c) text

/-- `SentimentAnalyzer.detect_language` (sentiment_service.py:303-322). -/
def detect_language (text : List Char) : String :=
  let arabic_count := text.countP (fun c => isArabicChar c)
  let english_count := text.countP (fun c => isLatinLetter c)
  let total := arabic_count + english_count
  if total = 0 then "EN"
  else if (arabic_count : ℚ) / total > 7/10 then "AR"
  else if (arabic_count : ℚ) / total < 3/10 then "EN"
  else "Mixed"
/-- Transcribed from sentiment_service.py: `self.negation_words_en` (a Python set literal; `.dedup` models set semantics). -/
def negation_words_en : List (List Char) :=
  ([ "nobody", "wasn\x27t", "never", "barely", "won\x27t", "didnt", "nothing", "hadnt", "don\x27t", "neither", "shouldnt", "shouldn\x27t", "lacks", "wont", "couldn\x27t", "doesnt", "hasnt", "wouldn\x27t", "isnt", "werent", "lack", "wasnt", "haven\x27t", "without", "nowhere", "hadn\x27t", "hardly", "nt", "weren\x27t", "didn\x27t", "isn\x27t", "arent", "doesn\x27t", "dont", "lacking", "n\x27t", "couldnt", "havent", "no", "aren\x27t", "hasn\x27t", "wouldnt", "scarcely", "not" ].map s2c).dedup

/-- Transcribed from sentiment_service.py: `self.negation_words_ar` (a Python set literal; `.dedup` models set semantics). -/
def negation_words_ar : List (List Char) :=
  ([ "ليست", "غير", "لن", "ليس", "مو", "لست", "ليسوا", "مش", "ماكان", "لسنا", "بدون", "لم", "ماكانت", "لا", "ما", "عدم" ].map s2c).dedup

/-- Transcribed from sentiment_service.py: `self.positive_words_ar` (a Python set literal; `.dedup` models set semantics). -/
def positive_words_ar : List (List Char) :=
  ([ "سلسة", "سريع", "جيدة", "عظيم", "كفء", "خدمة العملاء", "جميله", "مميز", "سعيد", "أفضل", "مذهل", "رضا", "راضية", "احب", "حلوة", "ممتازة", "جيده", "مريحة", "شكراً", "ممتن", "خدمة ممتازة", "زي الفل", "مريحه", "مبهر", "روعه", "محترم", "انصح", "رائع", "أحب", "تجربة رائعة", "مميزة", "ممتاز", "محترف", "تحفة", "نظيف", "عجبني", "ودود", "جميلة", "سأسافر", "مثالية", "مرتبة", "هايله", "أحسن", "مبهرة", "واسع", "استمتعت", "مدهشة", "روعة", "لطيفة", "عال", "سريعة", "رائعة", "منظم", "عالي", "استمتع", "سهلة", "ساسافر", "سير الرحلة", "جميل", "أعجبني", "بارع", "واسعة", "استثنائي", "لذيذ", "سلس", "حلوه", "راضي", "ممتنة", "اخرى", "تمام", "شكرا", "استثنائية", "لطيف", "جيد", "حلو", "مرة أخرى", "سهل", "تحفه", "مريح", "هايل", "متميز", "مدهش", "موصى", "أنصح", "مثالي", "كفاءة", "مرتب", "فخم" ].map s2c).dedup

/-- Transcribed from sentiment_service.py: `self.positive_words_en` (a Python set literal; `.dedup` models set semantics). -/
def positive_words_en : List (List Char) :=
  ([ "adequate", "efficient", "quick", "kind", "lovely", "exceeded", "enhanced", "impressed", "great", "gracious", "spacious", "fresh", "polite", "best", "punctual", "like", "impressive", "love", "attentive", "organized", "brilliant", "helpful", "exceptional", "liked", "understanding", "remarkable", "comfortable", "caring", "enjoyable", "reasonable", "recommend", "appreciate", "improved", "careful", "outstanding", "pleased", "friendly", "dependable", "overjoyed", "modern", "smooth", "fantastic", "superb", "generous", "consistent", "thrilled", "prompt", "fine", "clean", "wonderful", "delightful", "flexible", "surpassed", "excellent", "happy", "thank", "decent", "patient", "prefer", "trustworthy", "enjoy", "fast", "upgraded", "nice", "accommodating", "warm", "delighted", "awesome", "reliable", "fair", "thorough", "preferred", "courteous", "acceptable", "thanks", "pleasant", "loved", "tidy", "enjoyed", "satisfied", "amazing", "professional", "perfect", "good", "welcoming" ].map s2c).dedup

/-- Transcribed from sentiment_service.py: `self.negative_words_ar` (a Python set literal; `.dedup` models set semantics). -/
def negative_words_ar : List (List Char) :=
  ([ "متسخة", "معقد", "مفقودة", "مفقود", "ضيق", "وقحة", "فقدان", "عطل", "ملل", "ضائع", "معقدة", "سيئة", "مشكلة", "مكتظة", "مربكة", "رديء", "مرهق", "فوضى", "سيئ", "متعب", "طويل", "جافة", "مزعج", "غاضب", "محدودة", "ملغي", "صعبة", "مزدحمة", "معطل", "ضائعة", "رفض", "مقرفة", "خشن", "مملة", "بطيء", "فظيع", "مكسورة", "نقص", "حارة", "أسوأ", "ضياع", "خربان", "وسخة", "قذرة", "مقرف", "اسوأ", "خشنة", "محدود", "صعب", "زهقت", "سيء", "منهكة", "ضيقة", "مكسور", "رديئة", "عطلان", "وقح", "قذر", "خراب", "مزدحم", "مكتظ", "سخيفة", "فظ", "غائبة", "وسخ", "متأخر", "حار", "جاف", "محبط", "مرهقة", "ممل", "بطيئة", "سخيف", "إلغاء", "متسخ", "طويلة", "مربك", "متعبة", "منهك", "منزعج", "خسارة", "فوضوي", "تأخير", "ناقص", "معطلة", "ناقصة", "فظة", "زهقان", "غائب", "باردة", "بارد", "كارثة", "ضعيف" ].map s2c).dedup

/-- Transcribed from sentiment_service.py: `self.negative_words_en` (a Python set literal; `.dedup` models set semantics). -/
def negative_words_en : List (List Char) :=
  ([ "hostile", "destroyed", "failed", "problem", "unsatisfactory", "careless", "terrible", "abusive", "unbearable", "aggressive", "overpriced", "negligent", "complex", "cold", "arrogant", "intolerable", "frustrated", "awful", "boring", "inferior", "shameful", "ignored", "dismissed", "difficult", "horrific", "stuffy", "ridiculous", "stressful", "complicated", "loud", "condescending", "stained", "exhausting", "tiring", "neglected", "malfunctioning", "disgusted", "issue", "expensive", "tight", "avoid", "subpar", "unresponsive", "broken", "appalling", "spoiled", "disgraceful", "worthless", "cramped", "incompetent", "impatient", "uncomfortable", "failure", "regret", "irresponsible", "angry", "atrocious", "hate", "canceled", "overdue", "confusing", "lacking", "costly", "hopeless", "flawed", "disaster", "unprofessional", "inadequate", "hard", "slow", "crowded", "never", "complaint", "pointless", "defective", "tedious", "noisy", "deficient", "threatening", "regretted", "hot", "filthy", "lazy", "disgusting", "late", "disrespectful", "behind", "pathetic", "dirty", "delayed", "waste", "imperfect", "smelly", "disappointing", "unacceptable", "insufficient", "nightmare", "cancelled", "missing", "unhelpful", "mediocre", "unclean", "faulty", "horrible", "rude", "offensive", "bad", "insulting", "worst", "messy", "poor", "ripoff", "disgust", "damaged", "freezing", "outrageous", "dreadful", "waiting", "limited", "useless", "wasted", "small", "absurd", "refund", "scam", "narrow", "ruined", "lost", "sluggish", "disappointed" ].map s2c).dedup

/-- Transcribed from sentiment_service.py: `self.neutral_words_en` (a Python set literal; `.dedup` models set semantics). -/
def neutral_words_en : List (List Char) :=
  ([ "adequate", "depends", "nothing special", "regular", "average", "no change", "workable", "uneventful", "sort of", "moderate", "mixed feelings", "like always", "fine", "usual", "fair", "okay", "perhaps", "partially", "might be", "similar to before", "same as usual", "ups and downs", "passable", "some good some bad", "acceptable", "nothing extraordinary", "partly", "reasonable", "so-so", "ok", "maybe", "tolerable", "both good and bad", "alright", "standard", "decent", "more or less", "middle of the road", "satisfactory", "as expected", "not sure", "pros and cons", "normal", "ordinary", "sufficient", "varied", "what i expected", "somewhat", "no different", "mixed", "nothing remarkable", "sometimes", "could be", "hit or miss", "typical", "about average", "kind of", "medium", "occasionally", "unremarkable", "routine", "neither here nor there" ].map s2c).dedup

/-- Transcribed from sentiment_service.py: `self.neutral_words_ar` (a Python set literal; `.dedup` models set semantics). -/
def neutral_words_ar : List (List Char) :=
  ([ "مفيش جديد", "إلى حد ما", "مش وحش", "متوسطة", "كويس", "زي العادة", "احيانا", "محتمل", "نص نص", "مقبولة", "عادية", "تمام", "كالمعتاد", "بعض", "يمكن", "ماشي", "معقولة", "عادي جدا", "وسط", "نوعا ما", "أحياناً", "يعتمد", "ربما", "متوسط", "لا شيء مميز", "لا بأس", "المتوقع", "معقول", "زي ما هو", "ممكن", "بين بين", "مقبول", "عادي" ].map s2c).dedup

/-- Transcribed from sentiment_service.py: `self.strong_negatives` (a Python set literal; `.dedup` models set semantics). -/
def strong_negatives : List (List Char) :=
  ([ "terrible", "horrible", "awful", "worst", "disgusting", "unacceptable", "rude", "delayed", "late", "lost", "cancelled", "canceled", "disappointing", "disappointed", "poor", "bad" ].map s2c).dedup


/-- `re.sub(r'[^\w؀-ۿ]', '', word)`: keep only word characters
(`\w` already contains the Arabic block over the modelled alphabet). -/
def cleanWord (word : List Char) : List Char := word.filter isWordChar

/-- The word-scanning loop of `detect_negation` (sentiment_service.py:379-388):
for each whitespace token whose cleaned form is a negation word, record the
cleaned forms of the following 1-3 tokens (in token order). -/
def negScanWords (negWords : List (List Char)) : List (List Char) → Bool × List (List Char)
  | [] => (false, [])
  | word :: rest =>
    let tl := negScanWords negWords rest
    if negWords.contains (cleanWord word) then
      (true, (rest.take 3).map cleanWord ++ tl.2)
    else tl

/-- One attempt of the negation regexes `\b(alt₁|…|altₖ)\s+(\w+)` at a fixed
position: the first alternative that is a literal prefix and is followed by at
least one whitespace then at least one word character; returns the captured
`\w+` group and the suffix after the whole match. -/
def tryNegPattern : List (List Char) → List Char → Option (List Char × List Char)
  | [], _ => none
  | alt :: alts, s =>
    if alt.isPrefixOf s then
      let afterAlt := s.drop alt.length
      let ws := afterAlt.takeWhile isSpaceChar
      let afterWs := afterAlt.drop ws.length
      let grp := afterWs.takeWhile isWordChar
      if ws.isEmpty || grp.isEmpty then tryNegPattern alts s
      else some (grp, afterWs.drop grp.length)
    else tryNegPattern alts s

/-- `re.findall` of a `\b(alt₁|…|altₖ)\s+(\w+)` pattern: scan left to right,
matching only at word boundaries (previous character not a word character,
tracked by `prevWord`), collecting group 2 and resuming after each match.
`fuel` only bounds the recursion; the scan consumes at least one character per
step, so `text.length` fuel is exact. -/
def scanNegPattern (alts : List (List Char)) : Nat → Bool → List Char → List (List Char)
  | 0, _, _ => []
  | _ + 1, _, [] => []
  | fuel + 1, prevWord, c :: rest =>
    if prevWord then scanNegPattern alts fuel (isWordChar c) rest
    else
      match tryNegPattern alts (c :: rest) with
      | some (grp, after) => grp :: scanNegPattern alts fuel true after
      | none => scanNegPattern alts fuel (isWordChar c) rest

/-- Alternatives of the three contraction regexes in `detect_negation`
(sentiment_service.py:393-397), in source order. -/
def negPatternAlts : List (List (List Char)) :=
  [ ([ "not", "n\x27t", "never", "no" ].map s2c),
    ([ "don\x27t", "doesn\x27t", "didn\x27t", "won\x27t", "wouldn\x27t", "couldn\x27t", "shouldn\x27t", "can\x27t", "cannot" ].map s2c),
    ([ "wasn\x27t", "weren\x27t", "isn\x27t", "aren\x27t", "haven\x27t", "hasn\x27t", "hadn\x27t" ].map s2c) ]

/-- The negation word set `detect_negation` selects for a language
(sentiment_service.py:371-373). -/
def negationWordsFor (language : String) : List (List Char) :=
  if language = "Mixed" then negation_words_en ++ negation_words_ar
  else if language = "EN" then negation_words_en
  else negation_words_ar

/-- `SentimentAnalyzer.detect_negation` (sentiment_service.py:363-405).
Returns `(has_negation, negated_words)`. -/
def detect_negation (text : List Char) (language : String) : Bool × List (List Char) :=
  let text_lower := text.map Char.toLower
  let words := splitWs text_lower
  let negWords := negationWordsFor language
  let fromWords := negScanWords negWords words
  if language = "EN" ∨ language = "Mixed" then
    let fromPatterns :=
      negPatternAlts.foldr (fun alts acc =>
        scanNegPattern alts (text_lower.length + 1) false text_lower ++ acc) []
    (fromWords.1 || !fromPatterns.isEmpty, fromWords.2 ++ fromPatterns)
  else fromWords

/-- First index at which `word` occurs delimited by word boundaries
(`re.search(r'\bword\b', text)`), as the pair of the prefix before the match
and whether a match exists; `prevWord` tracks the boundary on the left. -/
def findBoundedWord (word : List Char) : Nat → Bool → List Char → Option Nat
  | _, _, [] => none
  | pos, prevWord, c :: rest =>
    if !prevWord && word.isPrefixOf (c :: rest) &&
       (((c :: rest).drop word.length).headD ' ' |> isWordChar |> (! ·)) then
      some pos
    else findBoundedWord word (pos + 1) (isWordChar c) rest

/-- `SentimentAnalyzer._is_word_negated` (sentiment_service.py:516-540) for a
lowercase dictionary `word`: find the first word-boundary occurrence, then look
for any negation word as a substring of the 40 characters before it.  The
`language` argument selects the negation set exactly as in the source. -/
def is_word_negated (text : List Char) (word : List Char) (language : String) : Bool :=
  let negWords :=
    if language = "Mixed" then negation_words_en ++ negation_words_ar
    else if language = "EN" ∨ language = "Mixed" then negation_words_en
    else negation_words_ar
  match findBoundedWord word 0 false text with
  | none => false
  | some pos =>
    let before := (text.take pos).drop (pos - 40)
    negWords.any (fun neg => isSubstring neg before)

/-- First index of `word` as a plain substring (`str.find`). -/
def firstSubIdx (word : List Char) : Nat → List Char → Option Nat
  | _, [] => none
  | pos, c :: rest =>
    if word.isPrefixOf (c :: rest) then some pos
    else firstSubIdx word (pos + 1) rest

/-- `SentimentAnalyzer._is_word_negated_ar` (sentiment_service.py:542-560):
substring search for the word, then any Arabic negation word as a substring of
the 20 characters before it. -/
def is_word_negated_ar (text : List Char) (word : List Char) : Bool :=
  match firstSubIdx word 0 text with
  | none => false
  | some pos =>
    let before := (text.take pos).drop (pos - 20)
    negation_words_ar.any (fun neg => isSubstring neg before)

/-- The local `strong_negatives` list of `analyze_rule_based`
(sentiment_service.py:429-431). -/
def strong_negatives_list : List (List Char) :=
  [ "terrible", "horrible", "awful", "worst", "disgusting", "unacceptable", "rude", "delayed", "late", "lost", "cancelled", "canceled", "disappointing", "disappointed", "poor", "bad" ].map s2c

/-- Connectives of `re.search(r'\b(but|however|although|though|yet)\b', …)`. -/
def connectives : List (List Char) :=
  [ "but", "however", "although", "though", "yet" ].map s2c

/-- Try each connective at the current position: literal prefix with a word
boundary after it; on success return the suffix after the connective
(`text_lower[but_match.end():]`). -/
def connMatchAt (s : List Char) : Option (List Char) :=
  connectives.findSome? (fun cw =>
    if cw.isPrefixOf s && !(isWordChar ((s.drop cw.length).headD ' ')) then
      some (s.drop cw.length)
    else none)

/-- Leftmost word-boundary match of a connective; `prevWord` tracks the left
boundary.  Returns the text after the match (sentiment_service.py:434-436). -/
def findConnRest (prevWord : Bool) : List Char → Option (List Char)
  | [] => none
  | c :: rest =>
    match (if prevWord then none else connMatchAt (c :: rest)) with
    | some after => some after
    | none => findConnRest (isWordChar c) rest

/-- Componentwise sum of per-word `(positive, negative, neutral)` score
contributions; models an accumulation loop over a word set. -/
def sumContrib (f : α → ℚ × ℚ × ℚ) : List α → ℚ × ℚ × ℚ
  | [] => (0, 0, 0)
  | a :: l => f a + sumContrib f l

/-- Contribution of one English positive-dictionary word
(sentiment_service.py:471-476): if the word occurs in the text and is negated
it adds 1.5 to the negative score, otherwise 1 to the positive score. -/
def enPosContrib (text_lower : List Char) (words_en negated_set : List (List Char))
    (has_negation : Bool) (word : List Char) : ℚ × ℚ × ℚ :=
  if words_en.contains word then
    if negated_set.contains word || (has_negation && is_word_negated text_lower word "EN") then
      (0, 3/2, 0)
    else (1, 0, 0)
  else (0, 0, 0)

/-- Contribution of one English negative-dictionary word
(sentiment_service.py:478-483): negated it adds 0.5 to the positive score,
otherwise 1 to the negative score. -/
def enNegContrib (text_lower : List Char) (words_en negated_set : List (List Char))
    (has_negation : Bool) (word : List Char) : ℚ × ℚ × ℚ :=
  if words_en.contains word then
    if negated_set.contains word || (has_negation && is_word_negated text_lower word "EN") then
      (1/2, 0, 0)
    else (0, 1, 0)
  else (0, 0, 0)

/-- Contribution of one English neutral-dictionary word
(sentiment_service.py:486-488): 0.5 to the neutral score. -/
def enNeuContrib (words_en : List (List Char)) (word : List Char) : ℚ × ℚ × ℚ :=
  if words_en.contains word then (0, 0, 1/2) else (0, 0, 0)

/-- The English dictionary-scoring block (sentiment_service.py:470-488). -/
def scoresEN (text_lower : List Char) (words_en negated_set : List (List Char))
    (has_negation : Bool) : ℚ × ℚ × ℚ :=
  sumContrib (enPosContrib text_lower words_en negated_set has_negation) positive_words_en +
  sumContrib (enNegContrib text_lower words_en negated_set has_negation) negative_words_en +
  sumContrib (enNeuContrib words_en) neutral_words_en

/-- Contribution of one Arabic positive-dictionary word
(sentiment_service.py:449-455), substring-matched on the raw text. -/
def arPosContrib (text : List Char) (word : List Char) : ℚ × ℚ × ℚ :=
  if isSubstring word text then
    if is_word_negated_ar text word then (0, 3/2, 0) else (1, 0, 0)
  else (0, 0, 0)

/-- Contribution of one Arabic negative-dictionary word
(sentiment_service.py:457-462). -/
def arNegContrib (text : List Char) (word : List Char) : ℚ × ℚ × ℚ :=
  if isSubstring word text then
    if is_word_negated_ar text word then (1/2, 0, 0) else (0, 1, 0)
  else (0, 0, 0)

/-- Contribution of one Arabic neutral-dictionary word
(sentiment_service.py:465-467). -/
def arNeuContrib (text : List Char) (word : List Char) : ℚ × ℚ × ℚ :=
  if isSubstring word text then (0, 0, 1/2) else (0, 0, 0)

/-- The Arabic dictionary-scoring block (sentiment_service.py:448-467). -/
def scoresAR (text : List Char) : ℚ × ℚ × ℚ :=
  sumContrib (arPosContrib text) positive_words_ar +
  sumContrib (arNegContrib text) negative_words_ar +
  sumContrib (arNeuContrib text) neutral_words_ar

/-- The final decision step of `analyze_rule_based`
(sentiment_service.py:490-514), on the accumulated
`(positive_score, negative_score, neutral_score)`. -/
def decideSentiment (positive_score negative_score neutral_score : ℚ) : String × ℚ :=
  if positive_score + negative_score + neutral_score = 0 then ("neutral", 1/2)
  else if negative_score < positive_score ∧ neutral_score ≤ positive_score then
    ("positive", min (19/20) (3/5 + (positive_score - max negative_score neutral_score) * (1/10)))
  else if positive_score < negative_score ∧ neutral_score ≤ negative_score then
    ("negative", min (19/20) (3/5 + (negative_score - max positive_score neutral_score) * (1/10)))
  else if 0 < neutral_score ∧ |positive_score - negative_score| < 1/2 then ("neutral", 13/20)
  else if |positive_score - negative_score| < 1/2 then ("neutral", 11/20)
  else if negative_score < positive_score then ("positive", 29/50)
  else ("negative", 29/50)

/-- The word the code special-cases as always negative. -/
def mediocreW : List Char := "mediocre".data

/-- The full `(positive_score, negative_score, neutral_score)` accumulation of
`analyze_rule_based` (sentiment_service.py:419-488): the Arabic block runs for
languages AR/Mixed, the English block for EN/Mixed. -/
def ruleScores (text : List Char) (language : String) : ℚ × ℚ × ℚ :=
  let text_lower := text.map Char.toLower
  let dn := detect_negation text language
  (if language = "AR" ∨ language = "Mixed" then scoresAR text else (0, 0, 0)) +
  (if language = "EN" ∨ language = "Mixed" then
    scoresEN text_lower (enWords text_lower) (dn.2.map (List.map Char.toLower)) dn.1
  else (0, 0, 0))

/-- Whether the mixed-sentiment override fires (sentiment_service.py:427-441):
a contrastive connective with a strong negative word somewhere after it. -/
def mixedOverride (text_lower : List Char) : Bool :=
  match findConnRest false text_lower with
  | some rest => strong_negatives_list.any (fun w => isSubstring w rest)
  | none => false

/-- `SentimentAnalyzer.analyze_rule_based` (sentiment_service.py:407-514):
mixed-sentiment override, `mediocre` special case, dictionary scoring, and the
decision step.  Returns `(sentiment, confidence)` with confidence in `[0,1]`. -/
def analyze_rule_based (text : List Char) (language : String) : String × ℚ :=
  let text_lower := text.map Char.toLower
  if (language = "EN" ∨ language = "Mixed") ∧ mixedOverride text_lower = true then
    ("negative", 3/4)
  else if (language = "EN" ∨ language = "Mixed") ∧ isSubstring mediocreW text_lower = true then
    ("negative", 3/4)
  else
    let s := ruleScores text language
    decideSentiment s.1 s.2.1 s.2.2

/-- Python's `round(x)` on the exact value: round half to even, to an integer. -/
def pyRoundInt (x : ℚ) : ℤ :=
  if x - ⌊x⌋ < 1/2 then ⌊x⌋
  else if 1/2 < x - ⌊x⌋ then ⌊x⌋ + 1
  else if Even ⌊x⌋ then ⌊x⌋ else ⌊x⌋ + 1

/-- Python's `round(x, 1)` on the exact value: round half to even at one
decimal place. -/
def pyRound1 (x : ℚ) : ℚ := (pyRoundInt (x * 10) : ℚ) / 10

/-- The dictionary returned by `SentimentAnalyzer.analyze`
(sentiment_service.py:1153-1162), in the rule-based configuration.  The
optional `error` field models the extra `"error"` key of the batch placeholder
(sentiment_service.py:1175-1183); the placeholder dictionary carries no
negation keys, modelled as `false` / `[]`. -/
structure ClassificationResult where
  text : List Char
  sentiment : String
  confidence : ℚ
  language : String
  model_version : String
  has_negation : Bool
  negated_words : List (List Char)
  error : Option String := none
deriving Repr, DecidableEq

/-- `SentimentAnalyzer.analyze` (sentiment_service.py:1118-1162) in the
rule-based configuration (no ML pipeline loaded, so `ml_available` is false and
the `analyze_rule_based` branch is taken for any `use_ml`). -/
def analyze (text : List Char) (_use_ml : Bool := true) : ClassificationResult :=
  let language := detect_language text
  let dn := detect_negation text language
  let r := analyze_rule_based text language
  { text := text
    sentiment := r.1
    confidence := pyRound1 (r.2 * 100)
    language := language
    model_version := "rule-based-v2-enhanced"
    has_negation := dn.1
    negated_words := dn.2.take 5
    error := none }

/-- The per-item failure placeholder of `analyze_batch`
(sentiment_service.py:1175-1183); `model_version` is the analyzer's startup
value `"rule-based-v2"` in the rule-based configuration. -/
def placeholderResult (text : List Char) (e : String) : ClassificationResult :=
  { text := text
    sentiment := "neutral"
    confidence := 0
    language := "EN"
    model_version := "rule-based-v2"
    has_negation := false
    negated_words := []
    error := some e }

/-- The control flow of `SentimentAnalyzer.analyze_batch`
(sentiment_service.py:1164-1184), with the per-item `try/except` made explicit
as a fallible analysis function `f`: a failing item is replaced by the
placeholder and the remaining items are still processed. -/
def analyze_batch_with (f : List Char → Except String ClassificationResult)
    (texts : List (List Char)) : List ClassificationResult :=
  texts.map (fun t =>
    match f t with
    | .ok r => r
    | .error e => placeholderResult t e)

/-- `SentimentAnalyzer.analyze_batch` itself: in the embedding `analyze` is a
total function, so every item takes the success branch. -/
def analyze_batch (texts : List (List Char)) : List ClassificationResult :=
  analyze_batch_with (fun t => .ok (analyze t)) texts

/-- The sentiment-distribution statistics dictionary consumed by
`ReportService.calculate_nps` / `calculate_csat` (`stats['total']` is a
separate dictionary entry, not recomputed from the three counts). -/
structure SentimentStats where
  total : ℕ
  positive : ℕ
  negative : ℕ
  neutral : ℕ
deriving Repr, DecidableEq

/-- Return value of `ReportService.calculate_nps`; the `total == 0` early
return carries no target fields (report_service.py:297-304), hence `Option`. -/
structure NpsResult where
  nps_score : ℤ
  grade : String
  promoter_pct : ℚ
  passive_pct : ℚ
  detractor_pct : ℚ
  target : Option ℤ
  vs_target : Option ℤ
  meets_target : Option Bool
deriving Repr, DecidableEq

/-- The NPS grade bands (report_service.py:313-322). -/
def npsGrade (nps_score : ℤ) : String :=
  if 70 ≤ nps_score then "Excellent"
  else if 50 ≤ nps_score then "Great"
  else if 30 ≤ nps_score then "Good"
  else if 0 ≤ nps_score then "Needs Improvement"
  else "Critical"

/-- `ReportService.calculate_nps` (report_service.py:285-338), parameterised by
the configured `nps_target`. -/
def calculate_nps (nps_target : ℤ) (stats : SentimentStats) : NpsResult :=
  if stats.total = 0 then
    { nps_score := 0, grade := "N/A", promoter_pct := 0, passive_pct := 0,
      detractor_pct := 0, target := none, vs_target := none, meets_target := none }
  else
    let promoter_pct := pyRound1 ((stats.positive : ℚ) / stats.total * 100)
    let passive_pct := pyRound1 ((stats.neutral : ℚ) / stats.total * 100)
    let detractor_pct := pyRound1 ((stats.negative : ℚ) / stats.total * 100)
    let nps_score := pyRoundInt (promoter_pct - detractor_pct)
    { nps_score := nps_score
      grade := npsGrade nps_score
      promoter_pct := promoter_pct
      passive_pct := passive_pct
      detractor_pct := detractor_pct
      target := some nps_target
      vs_target := some (nps_score - nps_target)
      meets_target := some (nps_target ≤ nps_score) }

/-- Return value of `ReportService.calculate_csat` (report_service.py:340-385). -/
structure CsatResult where
  csat_score : ℚ
  threshold : ℚ
  meets_threshold : Bool
  satisfied_count : ℕ
  unsatisfied_count : ℕ
  status : String
deriving Repr, DecidableEq

/-- The CSAT status bands (report_service.py:367-376). -/
def csatStatus (csat_score : ℚ) : String :=
  if 90 ≤ csat_score then "Excellent"
  else if 80 ≤ csat_score then "Good"
  else if 70 ≤ csat_score then "Fair"
  else if 60 ≤ csat_score then "Needs Improvement"
  else "Critical"

/-- `ReportService.calculate_csat` (report_service.py:340-385), parameterised
by the configured `csat_threshold`. -/
def calculate_csat (csat_threshold : ℚ) (stats : SentimentStats) : CsatResult :=
  if stats.total = 0 then
    { csat_score := 0, threshold := csat_threshold, meets_threshold := false,
      satisfied_count := 0, unsatisfied_count := 0, status := "N/A" }
  else
    let csat_score := pyRound1 ((stats.positive : ℚ) / stats.total * 100)
    { csat_score := csat_score
      threshold := csat_threshold
      meets_threshold := csat_threshold ≤ csat_score
      satisfied_count := stats.positive
      unsatisfied_count := stats.negative
      status := csatStatus csat_score }

/-- `z = 1.96  # 95% confidence` of the Wilson score code. -/
noncomputable def zconf : ℝ := 1.96

/-- The Wilson score lower bound exactly as computed by
`ReportService.get_top_routes` (report_service.py:487-492) and
`get_top_routes` in analytics.py:1240-1248, for positive proportion `p` and
sample size `n`:
`(p + z*z/(2*n) - z*sqrt((p*(1-p) + z*z/(4*n))/n)) / (1 + z*z/n)`. -/
noncomputable def wilson (p n : ℝ) : ℝ :=
  (p + zconf * zconf / (2 * n) -
      zconf * Real.sqrt ((p * (1 - p) + zconf * zconf / (4 * n)) / n)) /
    (1 + zconf * zconf / n)

/-- The same lower bound after substituting `a = z²/n`; the bridge
`wilson_eq_wlb` below proves the two agree for `n > 0`. -/
noncomputable def wlb (p a : ℝ) : ℝ :=
  (p + a / 2 - Real.sqrt (a * (p * (1 - p)) + a ^ 2 / 4)) / (1 + a)

/-- The matching upper endpoint of the Wilson interval (used only to place the
lower bound between the two roots of the interval's defining quadratic). -/
noncomputable def wub (p a : ℝ) : ℝ :=
  (p + a / 2 + Real.sqrt (a * (p * (1 - p)) + a ^ 2 / 4)) / (1 + a)

/-- Stored per-record sentiment label (the analyzer only ever persists these
three values). -/
inductive Senti
  | positive
  | negative
  | neutral
deriving Repr, DecidableEq

/-- A feedback record as seen by `get_nps_history`: its `feedback_date`
reduced to an absolute calendar-month index (`year*12 + month`), plus its
stored sentiment.  Records with a null date or null sentiment are filtered out
by the query (analytics.py:1032-1034) and are not modelled. -/
structure MonthRec where
  month : ℕ
  senti : Senti
deriving Repr, DecidableEq

/-- One element of the `history` list built by `get_nps_history`
(analytics.py:1090-1115); `month` is the month index of the timeline slot. -/
structure HistEntry where
  month : ℕ
  nps : Option ℤ
  total_responses : ℕ
  promoters : ℕ
  detractors : ℕ
  passives : ℕ
  promoters_pct : ℚ
  detractors_pct : ℚ
  has_sufficient_data : Bool
  has_data : Bool
deriving Repr, DecidableEq

/-- Count of the records of month `k` and sentiment `lbl` that pass the query
date filter `[s, e]` (the SQL `GROUP BY` row counts, analytics.py:1027-1060). -/
def monthSentiCount (recs : List MonthRec) (s e k : ℕ) (lbl : Senti) : ℕ :=
  (recs.filter (fun r => s ≤ r.month ∧ r.month ≤ e ∧ r.month = k ∧ r.senti = lbl)).length

/-- Whether `months_data` has a key for month `k`: some record in the filtered
range falls in that month (analytics.py:1047-1060). -/
def monthHasKey (recs : List MonthRec) (s e k : ℕ) : Bool :=
  recs.any (fun r => decide (s ≤ r.month) && decide (r.month ≤ e) && decide (r.month = k))

/-- The history entry `get_nps_history` emits for timeline month `k`
(analytics.py:1063-1115).  `min_responses_threshold = 5`. -/
def buildHistEntry (recs : List MonthRec) (s e k : ℕ) : HistEntry :=
  if monthHasKey recs s e k then
    let promoters := monthSentiCount recs s e k Senti.positive
    let detractors := monthSentiCount recs s e k Senti.negative
    let passives := monthSentiCount recs s e k Senti.neutral
    let total := promoters + detractors + passives
    if 5 ≤ total then
      let promoters_pct := (promoters : ℚ) / total * 100
      let detractors_pct := (detractors : ℚ) / total * 100
      { month := k, nps := some (pyRoundInt (promoters_pct - detractors_pct)),
        total_responses := total, promoters := promoters, detractors := detractors,
        passives := passives, promoters_pct := pyRound1 promoters_pct,
        detractors_pct := pyRound1 detractors_pct,
        has_sufficient_data := true, has_data := true }
    else if 0 < total then
      let promoters_pct := (promoters : ℚ) / total * 100
      let detractors_pct := (detractors : ℚ) / total * 100
      { month := k, nps := some (pyRoundInt (promoters_pct - detractors_pct)),
        total_responses := total, promoters := promoters, detractors := detractors,
        passives := passives, promoters_pct := pyRound1 promoters_pct,
        detractors_pct := pyRound1 detractors_pct,
        has_sufficient_data := false, has_data := true }
    else
      { month := k, nps := none, total_responses := 0, promoters := 0,
        detractors := 0, passives := 0, promoters_pct := 0, detractors_pct := 0,
        has_sufficient_data := false, has_data := true }
  else
    { month := k, nps := none, total_responses := 0, promoters := 0,
      detractors := 0, passives := 0, promoters_pct := 0, detractors_pct := 0,
      has_sufficient_data := false, has_data := false }

/-- The timeline loop plus the final `history[-months:]` trim
(analytics.py:1013-1024 and 1117-1119).  Note the Python quirk that a trim
with `months == 0` (`history[-0:]`) keeps the whole list. -/
def buildHistory (months s e : ℕ) (recs : List MonthRec) : List HistEntry :=
  let hist := (List.range (e + 1 - s)).map (fun i => buildHistEntry recs s e (s + i))
  if months = 0 then hist
  else if months < hist.length then hist.drop (hist.length - months) else hist

/-- `get_nps_history` (analytics.py:969-1119), reduced to the data that decides
the claims: `months` is the requested window, `dateRange` the optional
explicit `(date_from, date_to)` pair in month units.  With no explicit range
and no records at all the endpoint returns an *empty* history
(analytics.py:996-1010); with no explicit range and some data it anchors the
timeline at the most recent record month. -/
def getNpsHistory (months : ℕ) (dateRange : Option (ℕ × ℕ))
    (recs : List MonthRec) : List HistEntry :=
  match dateRange with
  | some (s, e) => buildHistory months s e recs
  | none =>
    match (recs.map MonthRec.month).max? with
    | none => []
    | some mx => buildHistory months (mx - (months - 1)) mx recs

/-! ## Shared lemmas about the embedded arithmetic -/

theorem pyRoundInt_ge_floor (x : ℚ) : (⌊x⌋ : ℤ) ≤ pyRoundInt x := by
  unfold pyRoundInt
  split
  · exact le_refl _
  split
  · exact Int.le.intro 1 rfl
  split
  · exact le_refl _
  · exact Int.le.intro 1 rfl

theorem pyRoundInt_le_floor_add_one (x : ℚ) : pyRoundInt x ≤ ⌊x⌋ + 1 := by
  unfold pyRoundInt
  split
  · exact Int.le.intro 1 rfl
  split
  · exact le_refl _
  split
  · exact Int.le.intro 1 rfl
  · exact le_refl _

theorem pyRound1_bounds (x : ℚ) : x - 1/10 ≤ pyRound1 x ∧ pyRound1 x ≤ x + 1/10 := by
  unfold pyRound1
  have h1 : ((⌊x * 10⌋ : ℚ)) ≤ x * 10 := Int.floor_le _
  have h2 : x * 10 - 1 < (⌊x * 10⌋ : ℚ) := by
    have := Int.lt_floor_add_one (x * 10)
    linarith
  have h3 : ((⌊x * 10⌋ : ℤ) : ℚ) ≤ (pyRoundInt (x * 10) : ℚ) := by
    exact_mod_cast pyRoundInt_ge_floor (x * 10)
  have h4 : ((pyRoundInt (x * 10) : ℤ) : ℚ) ≤ ((⌊x * 10⌋ : ℚ)) + 1 := by
    exact_mod_cast pyRoundInt_le_floor_add_one (x * 10)
  constructor
  · linarith
  · linarith

theorem pyRoundInt_intCast (m : ℤ) : pyRoundInt (m : ℚ) = m := by
  unfold pyRoundInt
  simp [Int.floor_intCast]

theorem pyRoundInt_mono {x y : ℚ} (hxy : x ≤ y) : pyRoundInt x ≤ pyRoundInt y := by
  rcases lt_or_eq_of_le (Int.floor_le_floor hxy) with hlt | hef
  · have h1 := pyRoundInt_le_floor_add_one x
    have h2 := pyRoundInt_ge_floor y
    omega
  · have hefq : ((⌊x⌋ : ℤ) : ℚ) = ((⌊y⌋ : ℤ) : ℚ) := by exact_mod_cast hef
    have hd : x - ((⌊x⌋ : ℤ) : ℚ) ≤ y - ((⌊y⌋ : ℤ) : ℚ) := by
      rw [hefq] at *
      linarith
    unfold pyRoundInt
    rw [hef, hefq] at *
    split_ifs
    all_goals first
      | omega
      | (exfalso; linarith)

/-! ## Shared lemmas about the classifier -/

theorem decideSentiment_wellformed (p n u : ℚ) :
    ((decideSentiment p n u).1 = "positive" ∨ (decideSentiment p n u).1 = "negative" ∨
      (decideSentiment p n u).1 = "neutral") ∧
    1/2 ≤ (decideSentiment p n u).2 ∧ (decideSentiment p n u).2 ≤ 19/20 := by
  unfold decideSentiment
  split_ifs with h0 h1 h2 h3 h4 h5
  · exact ⟨Or.inr (Or.inr rfl), by norm_num⟩
  · refine ⟨Or.inl rfl, ?_, min_le_left _ _⟩
    have hm : max n u ≤ p := max_le (le_of_lt h1.1) h1.2
    have : (0:ℚ) ≤ p - max n u := by linarith
    apply le_min
    · norm_num
    · nlinarith
  · refine ⟨Or.inr (Or.inl rfl), ?_, min_le_left _ _⟩
    have hm : max p u ≤ n := max_le (le_of_lt h2.1) h2.2
    have : (0:ℚ) ≤ n - max p u := by linarith
    apply le_min
    · norm_num
    · nlinarith
  · exact ⟨Or.inr (Or.inr rfl), by norm_num⟩
  · exact ⟨Or.inr (Or.inr rfl), by norm_num⟩
  · exact ⟨Or.inl rfl, by norm_num⟩
  · exact ⟨Or.inr (Or.inl rfl), by norm_num⟩

theorem analyze_rule_based_wellformed (text : List Char) (language : String) :
    ((analyze_rule_based text language).1 = "positive" ∨
      (analyze_rule_based text language).1 = "negative" ∨
      (analyze_rule_based text language).1 = "neutral") ∧
    1/2 ≤ (analyze_rule_based text language).2 ∧
    (analyze_rule_based text language).2 ≤ 19/20 := by
  simp only [analyze_rule_based]
  split_ifs with h1 h2
  · exact ⟨Or.inr (Or.inl rfl), by norm_num⟩
  · exact ⟨Or.inr (Or.inl rfl), by norm_num⟩
  · exact decideSentiment_wellformed _ _ _

/-! ## C1 -/

/-- C1: for every input text, `analyze` returns a result whose `sentiment` is
exactly one of the three strings `"positive"`, `"negative"`, `"neutral"` and
whose `confidence` is a number in the closed interval `[0, 100]`. -/
theorem C1_analyze_sentiment_and_confidence_wellformed (text : List Char) :
    ((analyze text).sentiment = "positive" ∨ (analyze text).sentiment = "negative" ∨
      (analyze text).sentiment = "neutral") ∧
    0 ≤ (analyze text).confidence ∧ (analyze text).confidence ≤ 100 := by
  obtain ⟨hs, hlo, hhi⟩ := analyze_rule_based_wellformed text (detect_language text)
  have hb := pyRound1_bounds ((analyze_rule_based text (detect_language text)).2 * 100)
  refine ⟨?_, ?_, ?_⟩
  · simpa [analyze] using hs
  · have : (0:ℚ) ≤ (analyze_rule_based text (detect_language text)).2 * 100 - 1/10 := by
      nlinarith
    simp only [analyze]
    linarith [hb.1]
  · have : (analyze_rule_based text (detect_language text)).2 * 100 + 1/10 ≤ 100 := by
      nlinarith
    simp only [analyze]
    linarith [hb.2]

/-! ## C10 -/

theorem detect_language_en_of_no_script (text : List Char)
    (h : ∀ c ∈ text, isArabicChar c = false ∧ isLatinLetter c = false) :
    detect_language text = "EN" := by
  have ha : text.countP (fun c => isArabicChar c) = 0 := by
    rw [List.countP_eq_zero]
    intro c hc
    simp [(h c hc).1]
  have he : text.countP (fun c => isLatinLetter c) = 0 := by
    rw [List.countP_eq_zero]
    intro c hc
    simp [(h c hc).2]
  simp [detect_language, ha, he]

/-- C10: a text containing no Arabic-block characters and no Latin letters
(the 0/0 case of the character-ratio rule, e.g. the empty string or digits-only
or punctuation-only text) is classified as English by `detect_language`. -/
theorem C10_detect_language_defaults_to_english (text : List Char)
    (h : ∀ c ∈ text, isArabicChar c = false ∧ isLatinLetter c = false) :
    detect_language text = "EN" :=
  detect_language_en_of_no_script text h

/-- Witness for C10 at the concrete punctuation/digit text `"123 !?"`. -/
theorem C10_witness : detect_language ("123 !?".data) = "EN" :=
  C10_detect_language_defaults_to_english ("123 !?".data) (by decide)

/-! ## C3 -/

theorem sumContrib_erase {α : Type} [BEq α] [LawfulBEq α] (f : α → ℚ × ℚ × ℚ) :
    ∀ (l : List α) (a : α), a ∈ l →
      sumContrib f l = f a + sumContrib f (l.erase a) := by
  intro l
  induction l with
  | nil => intro a h; cases h
  | cons b rest ih =>
    intro a h
    by_cases hba : b = a
    · subst hba
      simp [List.erase_cons_head, sumContrib]
    · have hmem : a ∈ rest := by
        rcases List.mem_cons.mp h with h1 | h1
        · exact absurd h1.symm hba
        · exact h1
      have herase : (b :: rest).erase a = b :: rest.erase a :=
        List.erase_cons_tail (by simpa using hba)
      rw [herase]
      show f b + sumContrib f rest = f a + (f b + sumContrib f (rest.erase a))
      rw [ih a hmem]
      ring

/-! ## C2 -/

/-- Counterexample to C2 as stated.  For the concrete text `"fine okay"`
(language EN, no negation, no connective) the accumulated scores are
`positive = 1, negative = 0, neutral = 1`: the neutral score *ties* the
positive score, so by the claim the winner does not exceed both competitors by
at least 0.5 and the result should be neutral — yet `analyze_rule_based`
declares `"positive"` (with confidence 60%, i.e. margin 0). -/
theorem C2_counterexample_neutral_tie_resolves_positive :
    ruleScores ("fine okay".data) "EN" = (1, 0, 1) ∧
    analyze_rule_based ("fine okay".data) "EN" = ("positive", 3/5) := by
  constructor
  · decide
  · decide

/-- C2 (amended): in the decision step a sentiment is declared exactly when its
score *strictly* exceeds the opposing polarity's score and is *at least* the
neutral score (a tie with the neutral score resolves to the winner, not to
neutral); its confidence is `min(95%, 60% + margin×10%)` where `margin` is the
winner's score minus the larger competing score.  A positive–negative tie
still yields neutral, and a text with exactly one positive-dictionary word and
one negative-dictionary word, no negation and no connective, is classified
neutral. -/
theorem C2_amended_decision_rule :
    (∀ p n u : ℚ, ¬(p + n + u = 0) → n < p → u ≤ p →
        decideSentiment p n u =
          ("positive", min (19/20) (3/5 + (p - max n u) * (1/10)))) ∧
    (∀ p n u : ℚ, ¬(p + n + u = 0) → p < n → u ≤ n →
        decideSentiment p n u =
          ("negative", min (19/20) (3/5 + (n - max p u) * (1/10)))) ∧
    (∀ p n u : ℚ, p = n → (decideSentiment p n u).1 = "neutral") ∧
    analyze_rule_based ("good bad".data) "EN" = ("neutral", 11/20) := by
  refine ⟨?_, ?_, ?_, ?_⟩
  · intro p n u h0 hn hu
    unfold decideSentiment
    rw [if_neg h0, if_pos ⟨hn, hu⟩]
  · intro p n u h0 hn hu
    unfold decideSentiment
    rw [if_neg h0]
    have hnp : ¬(n < p ∧ u ≤ p) := by
      rintro ⟨h1, -⟩
      exact absurd hn (not_lt_of_gt h1)
    rw [if_neg hnp, if_pos ⟨hn, hu⟩]
  · intro p n u hpn
    subst hpn
    have habs : |p - p| < 1/2 := by simp
    unfold decideSentiment
    split_ifs with h0 h1 h2 h3 h4 h5 <;>
      first
        | rfl
        | exact absurd h1.1 (lt_irrefl p)
        | exact absurd h2.1 (lt_irrefl p)
        | exact absurd habs (by assumption)
  · decide

/-- Witness for the amended C2 decision rule at concrete scores
`(p, n, u) = (2, 0, 0)`. -/
theorem C2_amended_witness :
    decideSentiment 2 0 0 = ("positive", min (19/20) (3/5 + (2 - max 0 0) * (1/10))) :=
  C2_amended_decision_rule.1 2 0 0 (by norm_num) (by norm_num) (by norm_num)

/-! ## C3 -/

/-- C3: in the rule-based dictionary scoring — in the English block
(sentiment_service.py:469-488) and equally in the Arabic block
(sentiment_service.py:447-467) — a matched negated positive word adds
`(0, 1.5, 0)` to the `(positive, negative, neutral)` scores, a matched
negated negative word adds `(0.5, 0, 0)`, and unnegated matches add their face
value: `(1, 0, 0)` for positive words, `(0, 1, 0)` for negative words,
`(0, 0, 0.5)` for neutral words — each shown as a decomposition of the full
score sum into that word's contribution plus the scores over the remaining
dictionary.  Consequently `analyze("not good")` is negative and
`analyze("not terrible")` is not negative. -/
theorem C3_negation_scoring_weights :
    (∀ (tl : List Char) (ws ns : List (List Char)) (hn : Bool) (w : List Char),
        w ∈ positive_words_en → ws.contains w = true →
        (ns.contains w || (hn && is_word_negated tl w "EN")) = true →
        scoresEN tl ws ns hn =
          (0, 3/2, 0) +
            (sumContrib (enPosContrib tl ws ns hn) (positive_words_en.erase w) +
              sumContrib (enNegContrib tl ws ns hn) negative_words_en +
              sumContrib (enNeuContrib ws) neutral_words_en)) ∧
    (∀ (tl : List Char) (ws ns : List (List Char)) (hn : Bool) (w : List Char),
        w ∈ negative_words_en → ws.contains w = true →
        (ns.contains w || (hn && is_word_negated tl w "EN")) = true →
        scoresEN tl ws ns hn =
          (1/2, 0, 0) +
            (sumContrib (enPosContrib tl ws ns hn) positive_words_en +
              sumContrib (enNegContrib tl ws ns hn) (negative_words_en.erase w) +
              sumContrib (enNeuContrib ws) neutral_words_en)) ∧
    (∀ (tl : List Char) (ws ns : List (List Char)) (hn : Bool) (w : List Char),
        w ∈ positive_words_en → ws.contains w = true →
        (ns.contains w || (hn && is_word_negated tl w "EN")) = false →
        scoresEN tl ws ns hn =
          (1, 0, 0) +
            (sumContrib (enPosContrib tl ws ns hn) (positive_words_en.erase w) +
              sumContrib (enNegContrib tl ws ns hn) negative_words_en +
              sumContrib (enNeuContrib ws) neutral_words_en)) ∧
    (∀ (tl : List Char) (ws ns : List (List Char)) (hn : Bool) (w : List Char),
        w ∈ negative_words_en → ws.contains w = true →
        (ns.contains w || (hn && is_word_negated tl w "EN")) = false →
        scoresEN tl ws ns hn =
          (0, 1, 0) +
            (sumContrib (enPosContrib tl ws ns hn) positive_words_en +
              sumContrib (enNegContrib tl ws ns hn) (negative_words_en.erase w) +
              sumContrib (enNeuContrib ws) neutral_words_en)) ∧
    (∀ (tl : List Char) (ws ns : List (List Char)) (hn : Bool) (w : List Char),
        w ∈ neutral_words_en → ws.contains w = true →
        scoresEN tl ws ns hn =
          (0, 0, 1/2) +
            (sumContrib (enPosContrib tl ws ns hn) positive_words_en +
              sumContrib (enNegContrib tl ws ns hn) negative_words_en +
              sumContrib (enNeuContrib ws) (neutral_words_en.erase w))) ∧
    (∀ (text w : List Char),
        w ∈ positive_words_ar → isSubstring w text = true →
        is_word_negated_ar text w = true →
        scoresAR text =
          (0, 3/2, 0) +
            (sumContrib (arPosContrib text) (positive_words_ar.erase w) +
              sumContrib (arNegContrib text) negative_words_ar +
              sumContrib (arNeuContrib text) neutral_words_ar)) ∧
    (∀ (text w : List Char),
        w ∈ negative_words_ar → isSubstring w text = true →
        is_word_negated_ar text w = true →
        scoresAR text =
          (1/2, 0, 0) +
            (sumContrib (arPosContrib text) positive_words_ar +
              sumContrib (arNegContrib text) (negative_words_ar.erase w) +
              sumContrib (arNeuContrib text) neutral_words_ar)) ∧
    (∀ (text w : List Char),
        w ∈ positive_words_ar → isSubstring w text = true →
        is_word_negated_ar text w = false →
        scoresAR text =
          (1, 0, 0) +
            (sumContrib (arPosContrib text) (positive_words_ar.erase w) +
              sumContrib (arNegContrib text) negative_words_ar +
              sumContrib (arNeuContrib text) neutral_words_ar)) ∧
    (∀ (text w : List Char),
        w ∈ negative_words_ar → isSubstring w text = true →
        is_word_negated_ar text w = false →
        scoresAR text =
          (0, 1, 0) +
            (sumContrib (arPosContrib text) positive_words_ar +
              sumContrib (arNegContrib text) (negative_words_ar.erase w) +
              sumContrib (arNeuContrib text) neutral_words_ar)) ∧
    (∀ (text w : List Char),
        w ∈ neutral_words_ar → isSubstring w text = true →
        scoresAR text =
          (0, 0, 1/2) +
            (sumContrib (arPosContrib text) positive_words_ar +
              sumContrib (arNegContrib text) negative_words_ar +
              sumContrib (arNeuContrib text) (neutral_words_ar.erase w))) ∧
    (analyze ("not good".data)).sentiment = "negative" ∧
    (analyze ("not terrible".data)).sentiment ≠ "negative" := by
  refine ⟨?_, ?_, ?_, ?_, ?_, ?_, ?_, ?_, ?_, ?_, ?_, ?_⟩
  · intro tl ws ns hn w hw hc hneg
    unfold scoresEN
    rw [sumContrib_erase _ positive_words_en w hw]
    have hcon : enPosContrib tl ws ns hn w = (0, 3/2, 0) := by
      unfold enPosContrib
      rw [if_pos hc, if_pos hneg]
    rw [hcon]
    simp only [add_assoc, add_comm, add_left_comm]
  · intro tl ws ns hn w hw hc hneg
    unfold scoresEN
    rw [sumContrib_erase _ negative_words_en w hw]
    have hcon : enNegContrib tl ws ns hn w = (1/2, 0, 0) := by
      unfold enNegContrib
      rw [if_pos hc, if_pos hneg]
    rw [hcon]
    simp only [add_assoc, add_comm, add_left_comm]
  · intro tl ws ns hn w hw hc hneg
    unfold scoresEN
    rw [sumContrib_erase _ positive_words_en w hw]
    have hcon : enPosContrib tl ws ns hn w = (1, 0, 0) := by
      unfold enPosContrib
      rw [if_pos hc, if_neg (by rw [hneg]; simp)]
    rw [hcon]
    simp only [add_assoc, add_comm, add_left_comm]
  · intro tl ws ns hn w hw hc hneg
    unfold scoresEN
    rw [sumContrib_erase _ negative_words_en w hw]
    have hcon : enNegContrib tl ws ns hn w = (0, 1, 0) := by
      unfold enNegContrib
      rw [if_pos hc, if_neg (by rw [hneg]; simp)]
    rw [hcon]
    simp only [add_assoc, add_comm, add_left_comm]
  · intro tl ws ns hn w hw hc
    unfold scoresEN
    rw [sumContrib_erase _ neutral_words_en w hw]
    have hcon : enNeuContrib ws w = (0, 0, 1/2) := by
      unfold enNeuContrib
      rw [if_pos hc]
    rw [hcon]
    simp only [add_assoc, add_comm, add_left_comm]
  · intro text w hw hc hneg
    unfold scoresAR
    rw [sumContrib_erase _ positive_words_ar w hw]
    have hcon : arPosContrib text w = (0, 3/2, 0) := by
      unfold arPosContrib
      rw [if_pos hc, if_pos hneg]
    rw [hcon]
    simp only [add_assoc, add_comm, add_left_comm]
  · intro text w hw hc hneg
    unfold scoresAR
    rw [sumContrib_erase _ negative_words_ar w hw]
    have hcon : arNegContrib text w = (1/2, 0, 0) := by
      unfold arNegContrib
      rw [if_pos hc, if_pos hneg]
    rw [hcon]
    simp only [add_assoc, add_comm, add_left_comm]
  · intro text w hw hc hneg
    unfold scoresAR
    rw [sumContrib_erase _ positive_words_ar w hw]
    have hcon : arPosContrib text w = (1, 0, 0) := by
      unfold arPosContrib
      rw [if_pos hc, if_neg (by rw [hneg]; simp)]
    rw [hcon]
    simp only [add_assoc, add_comm, add_left_comm]
  · intro text w hw hc hneg
    unfold scoresAR
    rw [sumContrib_erase _ negative_words_ar w hw]
    have hcon : arNegContrib text w = (0, 1, 0) := by
      unfold arNegContrib
      rw [if_pos hc, if_neg (by rw [hneg]; simp)]
    rw [hcon]
    simp only [add_assoc, add_comm, add_left_comm]
  · intro text w hw hc
    unfold scoresAR
    rw [sumContrib_erase _ neutral_words_ar w hw]
    have hcon : arNeuContrib text w = (0, 0, 1/2) := by
      unfold arNeuContrib
      rw [if_pos hc]
    rw [hcon]
    simp only [add_assoc, add_comm, add_left_comm]
  · decide
  · decide

/-- Witness for C3's general scoring decompositions: the English negated-positive
conjunct at the one-token text `"good"` with `"good"` recorded as negated, and
the Arabic unnegated-positive conjunct at the raw text `"جيد"`. -/
theorem C3_witness :
    (scoresEN [] [ "good".data ] [ "good".data ] false =
      (0, 3/2, 0) +
        (sumContrib (enPosContrib [] [ "good".data ] [ "good".data ] false)
            (positive_words_en.erase ("good".data)) +
          sumContrib (enNegContrib [] [ "good".data ] [ "good".data ] false) negative_words_en +
          sumContrib (enNeuContrib [ "good".data ]) neutral_words_en)) ∧
    (scoresAR ("جيد".data) =
      (1, 0, 0) +
        (sumContrib (arPosContrib ("جيد".data)) (positive_words_ar.erase ("جيد".data)) +
          sumContrib (arNegContrib ("جيد".data)) negative_words_ar +
          sumContrib (arNeuContrib ("جيد".data)) neutral_words_ar)) :=
  ⟨C3_negation_scoring_weights.1 [] [ "good".data ] [ "good".data ] false ("good".data)
      (by decide) (by decide) (by decide),
    C3_negation_scoring_weights.2.2.2.2.2.2.2.1 ("جيد".data) ("جيد".data)
      (by decide) (by decide) (by decide)⟩

/-! ## C4 -/

/-- C4: for any text whose language is EN or Mixed, if the lowercased text has
a word-boundary contrastive connective (but/however/although/though/yet) and a
strong negative word occurs (as a substring) in the text after the first such
connective, `analyze_rule_based` returns `("negative", 0.75)` outright —
the dictionary tally is never consulted; in particular the spec's example
sentence is classified negative. -/
theorem C4_mixed_override_forces_negative :
    (∀ (text : List Char) (language : String) (rest : List Char),
        (language = "EN" ∨ language = "Mixed") →
        findConnRest false (text.map Char.toLower) = some rest →
        strong_negatives_list.any (fun w => isSubstring w rest) = true →
        analyze_rule_based text language = ("negative", 3/4)) ∧
    (analyze ("The staff were friendly but the flight was delayed for hours".data)).sentiment
      = "negative" := by
  constructor
  · intro text language rest hl hconn hneg
    have ho : mixedOverride (text.map Char.toLower) = true := by
      unfold mixedOverride
      rw [hconn]
      exact hneg
    simp only [analyze_rule_based]
    rw [if_pos ⟨hl, ho⟩]
  · decide

/-- Witness for C4's override rule at the spec's example sentence. -/
theorem C4_witness :
    analyze_rule_based
        ("The staff were friendly but the flight was delayed for hours".data) "EN" =
      ("negative", 3/4) :=
  C4_mixed_override_forces_negative.1
    ("The staff were friendly but the flight was delayed for hours".data) "EN"
    (" the flight was delayed for hours".data)
    (Or.inl rfl) (by decide) (by decide)

/-! ## C5 -/

theorem isSpaceChar_cases {c : Char} (h : isSpaceChar c = true) :
    c = ' ' ∨ c = '\t' ∨ c = '\n' ∨ c = '\r' ∨ c = '\x0b' ∨ c = '\x0c' := by
  simpa [isSpaceChar, or_assoc] using h

theorem space_char_facts {c : Char} (h : isSpaceChar c = true) :
    isWordChar c = false ∧ isLatinLetter c = false ∧ isArabicChar c = false ∧
      Char.toLower c = c := by
  rcases isSpaceChar_cases h with h | h | h | h | h | h <;> subst h <;> decide

theorem runsByGo_eq_nil {p : Char → Bool} :
    ∀ l : List Char, (∀ c ∈ l, p c = false) → runsByGo p [] l = [] := by
  intro l
  induction l with
  | nil => intro _; rfl
  | cons c rest ih =>
    intro h
    have hc : p c = false := h c (List.mem_cons_self _ _)
    have hrest := fun x hx => h x (List.mem_cons_of_mem _ hx)
    simp [runsByGo, hc, ih hrest]

theorem runsBy_eq_nil {p : Char → Bool} {l : List Char}
    (h : ∀ c ∈ l, p c = false) : runsBy p l = [] :=
  runsByGo_eq_nil l h

theorem isPrefixOf_false_of_letter_head (d : Char) (ds : List Char) (c : Char)
    (rest : List Char) (hd : isLatinLetter d = true) (hc : isSpaceChar c = true) :
    (d :: ds).isPrefixOf (c :: rest) = false := by
  have hdc : (d == c) = false := by
    cases hbeq : d == c
    · rfl
    · exfalso
      have : d = c := eq_of_beq hbeq
      subst this
      exact absurd hd (by simp [(space_char_facts hc).2.1])
  simp [List.isPrefixOf, hdc]

theorem isSubstring_false_of_ws (d : Char) (ds : List Char)
    (hd : isLatinLetter d = true) :
    ∀ hay : List Char, (∀ c ∈ hay, isSpaceChar c = true) →
      isSubstring (d :: ds) hay = false := by
  intro hay
  induction hay with
  | nil => intro _; rfl
  | cons c rest ih =>
    intro h
    have hc := h c (List.mem_cons_self _ _)
    have hrest := fun x hx => h x (List.mem_cons_of_mem _ hx)
    simp [isSubstring, isPrefixOf_false_of_letter_head d ds c rest hd hc, ih hrest]

theorem connMatchAt_none {c : Char} {rest : List Char} (hc : isSpaceChar c = true) :
    connMatchAt (c :: rest) = none := by
  have hconn : ∀ a ∈ connectives, a ≠ [] ∧ isLatinLetter (a.headD ' ') = true := by decide
  unfold connMatchAt
  rw [List.findSome?_eq_none_iff]
  intro cw hcw
  obtain ⟨hne, hd⟩ := hconn cw hcw
  cases cw with
  | nil => exact absurd rfl hne
  | cons d ds =>
    rw [isPrefixOf_false_of_letter_head d ds c rest (by simpa using hd) hc]
    simp

theorem findConnRest_none_of_ws :
    ∀ (text : List Char) (b : Bool), (∀ c ∈ text, isSpaceChar c = true) →
      findConnRest b text = none := by
  intro text
  induction text with
  | nil => intro b _; cases b <;> rfl
  | cons c rest ih =>
    intro b h
    have hc := h c (List.mem_cons_self _ _)
    have hrest := fun x hx => h x (List.mem_cons_of_mem _ hx)
    show findConnRest b (c :: rest) = none
    unfold findConnRest
    cases b with
    | true => simpa using ih (isWordChar c) hrest
    | false =>
      rw [show (if false = true then none else connMatchAt (c :: rest)) = connMatchAt (c :: rest) by simp,
        connMatchAt_none hc]
      exact ih (isWordChar c) hrest

theorem sumContrib_zero {α : Type} (f : α → ℚ × ℚ × ℚ) :
    ∀ l : List α, (∀ a ∈ l, f a = (0, 0, 0)) → sumContrib f l = (0, 0, 0) := by
  intro l
  induction l with
  | nil => intro _; rfl
  | cons a rest ih =>
    intro h
    show f a + sumContrib f rest = (0, 0, 0)
    rw [h a (List.mem_cons_self _ _), ih (fun x hx => h x (List.mem_cons_of_mem _ hx))]
    simp

theorem scoresEN_empty_words (tl : List Char) (ns : List (List Char)) (hn : Bool) :
    scoresEN tl [] ns hn = (0, 0, 0) := by
  unfold scoresEN
  rw [sumContrib_zero _ _ (fun a _ => by simp [enPosContrib]),
    sumContrib_zero _ _ (fun a _ => by simp [enNegContrib]),
    sumContrib_zero _ _ (fun a _ => by simp [enNeuContrib])]
  simp

theorem ruleScores_ws (text : List Char)
    (hws : ∀ c ∈ text, isSpaceChar c = true) : ruleScores text "EN" = (0, 0, 0) := by
  have htl : ∀ c ∈ text.map Char.toLower, isSpaceChar c = true := by
    intro c hc
    obtain ⟨c0, hc0, rfl⟩ := List.mem_map.mp hc
    rw [(space_char_facts (hws c0 hc0)).2.2.2]
    exact hws c0 hc0
  have henw : enWords (text.map Char.toLower) = [] := by
    unfold enWords
    rw [runsBy_eq_nil (fun c hc => (space_char_facts (htl c hc)).1)]
    rfl
  simp only [ruleScores]
  rw [henw]
  simp only [scoresEN_empty_words]
  simp

theorem analyze_rule_based_ws (text : List Char)
    (hws : ∀ c ∈ text, isSpaceChar c = true) :
    analyze_rule_based text "EN" = ("neutral", 1/2) := by
  have htl : ∀ c ∈ text.map Char.toLower, isSpaceChar c = true := by
    intro c hc
    obtain ⟨c0, hc0, rfl⟩ := List.mem_map.mp hc
    rw [(space_char_facts (hws c0 hc0)).2.2.2]
    exact hws c0 hc0
  have hover : mixedOverride (text.map Char.toLower) = false := by
    unfold mixedOverride
    rw [findConnRest_none_of_ws _ false htl]
  have hmed : isSubstring mediocreW (text.map Char.toLower) = false :=
    isSubstring_false_of_ws 'm' ("ediocre".data) (by decide) _ htl
  simp only [analyze_rule_based]
  rw [if_neg (by simp [hover]), if_neg (by simp [hmed]), ruleScores_ws text hws]
  decide

/-- C5: `analyze` degrades gracefully — in the embedding it is a total
function, and an empty or whitespace-only text yields sentiment `"neutral"` at
the bottom confidence value 50; `analyze_batch_with` (the explicit `try/except`
control flow of `analyze_batch`) returns exactly one result per input item in
input order, a failing item being replaced by the neutral/zero-confidence
placeholder tagged with the error note while every other item is still
processed. -/
theorem C5_graceful_degradation :
    (∀ text : List Char, (∀ c ∈ text, isSpaceChar c = true) →
        (analyze text).sentiment = "neutral" ∧ (analyze text).confidence = 50) ∧
    (∀ (f : List Char → Except String ClassificationResult) (texts : List (List Char)),
        (analyze_batch_with f texts).length = texts.length ∧
        ∀ (i : ℕ) (hi : i < texts.length),
          (analyze_batch_with f texts).get ⟨i, by simpa [analyze_batch_with] using hi⟩ =
            match f (texts.get ⟨i, hi⟩) with
            | .ok r => r
            | .error e => placeholderResult (texts.get ⟨i, hi⟩) e) ∧
    (∀ (t : List Char) (e : String),
        (placeholderResult t e).sentiment = "neutral" ∧
        (placeholderResult t e).confidence = 0 ∧
        (placeholderResult t e).error = some e) := by
  refine ⟨?_, ?_, ?_⟩
  · intro text h
    have hlang : detect_language text = "EN" :=
      detect_language_en_of_no_script text (fun c hc =>
        ⟨(space_char_facts (h c hc)).2.2.1, (space_char_facts (h c hc)).2.1⟩)
    have hrb := analyze_rule_based_ws text h
    constructor
    · simp [analyze, hlang, hrb]
    · simp [analyze, hlang, hrb]
      decide
  · intro f texts
    refine ⟨by simp [analyze_batch_with], ?_⟩
    intro i hi
    simp [analyze_batch_with]
  · intro t e
    exact ⟨rfl, rfl, rfl⟩

/-- Witness for C5 at the whitespace-only text `"  "` and a two-item batch
whose analysis function always fails. -/
theorem C5_witness :
    ((analyze ("  ".data)).sentiment = "neutral" ∧ (analyze ("  ".data)).confidence = 50) ∧
    (analyze_batch_with (fun t => Except.error "boom") [ "a".data, "b".data ]).length = 2 :=
  ⟨C5_graceful_degradation.1 ("  ".data) (by decide),
    (C5_graceful_degradation.2.1 (fun t => Except.error "boom") [ "a".data, "b".data ]).1⟩

/-! ## C7 -/

theorem pyRound1_mono {x y : ℚ} (hxy : x ≤ y) : pyRound1 x ≤ pyRound1 y := by
  unfold pyRound1
  have := pyRoundInt_mono (mul_le_mul_of_nonneg_right hxy (by norm_num : (0:ℚ) ≤ 10))
  have hcast : ((pyRoundInt (x * 10) : ℤ) : ℚ) ≤ ((pyRoundInt (y * 10) : ℤ) : ℚ) := by
    exact_mod_cast this
  linarith

theorem pyRound1_intCast (m : ℤ) : pyRound1 (m : ℚ) = m := by
  unfold pyRound1
  have h : ((m : ℚ)) * 10 = ((m * 10 : ℤ) : ℚ) := by push_cast; ring
  rw [h, pyRoundInt_intCast]
  push_cast
  ring

theorem pyRound1_bounds_interval {x lo hi : ℚ} (hlo : (lo : ℚ) = ((⌊lo⌋ : ℤ) : ℚ))
    (hhi : (hi : ℚ) = ((⌊hi⌋ : ℤ) : ℚ)) (h1 : lo ≤ x) (h2 : x ≤ hi) :
    lo ≤ pyRound1 x ∧ pyRound1 x ≤ hi := by
  constructor
  · have := pyRound1_mono h1
    rwa [hlo, pyRound1_intCast, ← hlo] at this
  · have := pyRound1_mono h2
    rwa [hhi, pyRound1_intCast, ← hhi] at this

/-- C7: `calculate_nps` returns
`nps_score = round(promoter_pct − detractor_pct)` where `promoter_pct` /
`detractor_pct` are the positive / negative percentages of the total (rounded
to one decimal, as the code computes them), and the score always lies in
`[−100, 100]`. -/
theorem C7_nps_formula_and_range (nps_target : ℤ) (stats : SentimentStats)
    (h : stats.total = stats.positive + stats.negative + stats.neutral) :
    (calculate_nps nps_target stats).nps_score =
      pyRoundInt ((calculate_nps nps_target stats).promoter_pct -
        (calculate_nps nps_target stats).detractor_pct) ∧
    (0 < stats.total →
      (calculate_nps nps_target stats).promoter_pct =
        pyRound1 ((stats.positive : ℚ) / stats.total * 100) ∧
      (calculate_nps nps_target stats).detractor_pct =
        pyRound1 ((stats.negative : ℚ) / stats.total * 100)) ∧
    -100 ≤ (calculate_nps nps_target stats).nps_score ∧
    (calculate_nps nps_target stats).nps_score ≤ 100 := by
  by_cases h0 : stats.total = 0
  · have hz : pyRoundInt 0 = 0 := by
      rw [show ((0:ℚ)) = (((0:ℤ)):ℚ) by norm_num, pyRoundInt_intCast]
    refine ⟨?_, ?_, ?_, ?_⟩ <;> simp [calculate_nps, h0, hz]
  · have htpos : 0 < (stats.total : ℚ) := by
      have : 0 < stats.total := Nat.pos_of_ne_zero h0
      exact_mod_cast this
    have hple : stats.positive ≤ stats.total := by omega
    have hnle : stats.negative ≤ stats.total := by omega
    have hppct : 0 ≤ (stats.positive : ℚ) / stats.total * 100 ∧
        (stats.positive : ℚ) / stats.total * 100 ≤ 100 := by
      constructor
      · positivity
      · have hd : (stats.positive : ℚ) / stats.total ≤ 1 :=
          (div_le_one htpos).mpr (by exact_mod_cast hple)
        nlinarith
    have hnpct : 0 ≤ (stats.negative : ℚ) / stats.total * 100 ∧
        (stats.negative : ℚ) / stats.total * 100 ≤ 100 := by
      constructor
      · positivity
      · have hd : (stats.negative : ℚ) / stats.total ≤ 1 :=
          (div_le_one htpos).mpr (by exact_mod_cast hnle)
        nlinarith
    have hcast0 : ((0:ℚ)) = ((⌊(0:ℚ)⌋ : ℤ) : ℚ) := by norm_num
    have hcast100 : ((100:ℚ)) = ((⌊(100:ℚ)⌋ : ℤ) : ℚ) := by norm_num
    have hpb := pyRound1_bounds_interval hcast0 hcast100 hppct.1 hppct.2
    have hnb := pyRound1_bounds_interval hcast0 hcast100 hnpct.1 hnpct.2
    refine ⟨?_, fun _ => ⟨?_, ?_⟩, ?_, ?_⟩
    · simp [calculate_nps, h0]
    · simp [calculate_nps, h0]
    · simp [calculate_nps, h0]
    · simp only [calculate_nps, if_neg h0]
      have hdiff : (-100 : ℚ) ≤ pyRound1 ((stats.positive : ℚ) / stats.total * 100) -
          pyRound1 ((stats.negative : ℚ) / stats.total * 100) := by linarith [hpb.1, hpb.2, hnb.1, hnb.2]
      have := pyRoundInt_mono hdiff
      rw [show ((-100 : ℚ)) = (((-100 : ℤ)) : ℚ) by norm_num, pyRoundInt_intCast] at this
      exact this
    · simp only [calculate_nps, if_neg h0]
      have hdiff : pyRound1 ((stats.positive : ℚ) / stats.total * 100) -
          pyRound1 ((stats.negative : ℚ) / stats.total * 100) ≤ (100 : ℚ) := by
        linarith [hpb.1, hpb.2, hnb.1, hnb.2]
      have := pyRoundInt_mono hdiff
      rw [show ((100 : ℚ)) = (((100 : ℤ)) : ℚ) by norm_num, pyRoundInt_intCast] at this
      exact this

/-- Witness for C7 at the distribution `total 5 = 3 positive + 1 negative +
1 neutral`. -/
theorem C7_witness :
    (calculate_nps 50 ⟨5, 3, 1, 1⟩).nps_score =
      pyRoundInt ((calculate_nps 50 ⟨5, 3, 1, 1⟩).promoter_pct -
        (calculate_nps 50 ⟨5, 3, 1, 1⟩).detractor_pct) ∧
    -100 ≤ (calculate_nps 50 ⟨5, 3, 1, 1⟩).nps_score ∧
    (calculate_nps 50 ⟨5, 3, 1, 1⟩).nps_score ≤ 100 := by
  obtain ⟨h1, _, h3, h4⟩ := C7_nps_formula_and_range 50 ⟨5, 3, 1, 1⟩ (by norm_num)
  exact ⟨h1, h3, h4⟩

/-! ## C8 -/

/-- Counterexample to C8 as stated: for 1 positive out of 3 total,
`csat_score` is not `positive/total×100 = 100/3` — the code rounds to one
decimal and returns `33.3`. -/
theorem C8_counterexample_csat_score_is_rounded :
    (calculate_csat 80 ⟨3, 1, 1, 1⟩).csat_score = 333/10 ∧
    (1 : ℚ) / 3 * 100 ≠ 333/10 := by
  constructor
  · decide
  · norm_num

/-- C8 (amended): when the total is zero, `calculate_nps` returns
`nps_score = 0` and `calculate_csat` returns `csat_score = 0` (both are total
functions — they return normally rather than raising or producing NaN); for a
nonzero total with `positive ≤ total`, the score is `positive/total×100`
rounded half-even to one decimal, and it lies in `[0, 100]`. -/
theorem C8_amended_zero_total_and_csat_range :
    (∀ (t : ℤ) (stats : SentimentStats), stats.total = 0 →
        (calculate_nps t stats).nps_score = 0) ∧
    (∀ (th : ℚ) (stats : SentimentStats), stats.total = 0 →
        (calculate_csat th stats).csat_score = 0) ∧
    (∀ (th : ℚ) (stats : SentimentStats), stats.total ≠ 0 →
        stats.positive ≤ stats.total →
        (calculate_csat th stats).csat_score =
          pyRound1 ((stats.positive : ℚ) / stats.total * 100) ∧
        0 ≤ (calculate_csat th stats).csat_score ∧
        (calculate_csat th stats).csat_score ≤ 100) := by
  refine ⟨?_, ?_, ?_⟩
  · intro t stats h0
    simp [calculate_nps, h0]
  · intro th stats h0
    simp [calculate_csat, h0]
  · intro th stats h0 hple
    have htpos : 0 < (stats.total : ℚ) := by
      have : 0 < stats.total := Nat.pos_of_ne_zero h0
      exact_mod_cast this
    have hppct : 0 ≤ (stats.positive : ℚ) / stats.total * 100 ∧
        (stats.positive : ℚ) / stats.total * 100 ≤ 100 := by
      constructor
      · positivity
      · have hd : (stats.positive : ℚ) / stats.total ≤ 1 :=
          (div_le_one htpos).mpr (by exact_mod_cast hple)
        nlinarith
    have hcast0 : ((0:ℚ)) = ((⌊(0:ℚ)⌋ : ℤ) : ℚ) := by norm_num
    have hcast100 : ((100:ℚ)) = ((⌊(100:ℚ)⌋ : ℤ) : ℚ) := by norm_num
    have hb := pyRound1_bounds_interval hcast0 hcast100 hppct.1 hppct.2
    refine ⟨?_, ?_, ?_⟩
    · simp [calculate_csat, h0]
    · simp only [calculate_csat, if_neg h0]
      exact hb.1
    · simp only [calculate_csat, if_neg h0]
      exact hb.2

/-- Witness for the amended C8 at total 0 and at the distribution
`1 positive of 4`. -/
theorem C8_amended_witness :
    (calculate_nps 50 ⟨0, 0, 0, 0⟩).nps_score = 0 ∧
    (calculate_csat 80 ⟨0, 0, 0, 0⟩).csat_score = 0 ∧
    ((calculate_csat 80 ⟨4, 1, 2, 1⟩).csat_score =
        pyRound1 ((1 : ℚ) / 4 * 100) ∧
      0 ≤ (calculate_csat 80 ⟨4, 1, 2, 1⟩).csat_score ∧
      (calculate_csat 80 ⟨4, 1, 2, 1⟩).csat_score ≤ 100) :=
  ⟨C8_amended_zero_total_and_csat_range.1 50 ⟨0, 0, 0, 0⟩ rfl,
    C8_amended_zero_total_and_csat_range.2.1 80 ⟨0, 0, 0, 0⟩ rfl,
    by
      have h := C8_amended_zero_total_and_csat_range.2.2 80 ⟨4, 1, 2, 1⟩ (by norm_num) (by norm_num)
      exact_mod_cast h⟩

/-! ## C9 -/

/-- Counterexample to C9 as stated: a 6-month NPS history request with *no
explicit date range* over a data set with zero feedback records returns an
empty history (the "no data at all" early return of analytics.py:996-1010) —
0 month entries, not 6. -/
theorem C9_counterexample_zero_data_returns_empty_history :
    (getNpsHistory 6 none []).length = 0 := rfl

theorem monthHasKey_of_count_pos {recs : List MonthRec} {s e k : ℕ} {lbl : Senti}
    (h : 0 < monthSentiCount recs s e k lbl) : monthHasKey recs s e k = true := by
  unfold monthSentiCount at h
  obtain ⟨r, hr⟩ := List.exists_mem_of_length_pos h
  obtain ⟨hrm, hrp⟩ := List.mem_filter.mp hr
  unfold monthHasKey
  rw [List.any_eq_true]
  refine ⟨r, hrm, ?_⟩
  simp only [decide_eq_true_eq] at hrp
  simp only [Bool.and_eq_true, decide_eq_true_eq]
  exact ⟨⟨hrp.1, hrp.2.1⟩, hrp.2.2.1⟩

/-- C9 (amended): when an explicit date range `[s, e]` spanning at most
`months` months is supplied, the history has exactly one entry per calendar
month of the range, in order; a month with zero records in the range appears
with `nps = none` and `has_data = false`; a month with more than zero but
fewer than 5 responses appears with `has_sufficient_data = false` while still
reporting a computed NPS value; and in particular a 6-month request over zero
records yields exactly 6 entries, none omitted, each `has_data = false`.
(With no explicit range and zero records overall, the endpoint instead
returns the empty history — see the counterexample.) -/
theorem C9_amended_explicit_range_timeline_completeness :
    (∀ (m s e : ℕ) (recs : List MonthRec), e + 1 - s ≤ m →
      (getNpsHistory m (some (s, e)) recs).length = e + 1 - s ∧
      ∀ (i : ℕ) (hi : i < (getNpsHistory m (some (s, e)) recs).length),
        (getNpsHistory m (some (s, e)) recs).get ⟨i, hi⟩ =
          buildHistEntry recs s e (s + i)) ∧
    (∀ (recs : List MonthRec) (s e k : ℕ),
      (∀ r ∈ recs, ¬(s ≤ r.month ∧ r.month ≤ e ∧ r.month = k)) →
      (buildHistEntry recs s e k).nps = none ∧
      (buildHistEntry recs s e k).has_data = false) ∧
    (∀ (recs : List MonthRec) (s e k : ℕ),
      0 < monthSentiCount recs s e k Senti.positive +
          monthSentiCount recs s e k Senti.negative +
          monthSentiCount recs s e k Senti.neutral →
      monthSentiCount recs s e k Senti.positive +
          monthSentiCount recs s e k Senti.negative +
          monthSentiCount recs s e k Senti.neutral < 5 →
      (buildHistEntry recs s e k).has_sufficient_data = false ∧
      ∃ v, (buildHistEntry recs s e k).nps = some v) ∧
    (∀ s : ℕ, (getNpsHistory 6 (some (s, s + 5)) []).length = 6 ∧
      ∀ (i : ℕ) (hi : i < (getNpsHistory 6 (some (s, s + 5)) []).length),
        ((getNpsHistory 6 (some (s, s + 5)) []).get ⟨i, hi⟩).has_data = false) := by
  have hbuild : ∀ (m s e : ℕ) (recs : List MonthRec), e + 1 - s ≤ m →
      getNpsHistory m (some (s, e)) recs =
        (List.range (e + 1 - s)).map (fun i => buildHistEntry recs s e (s + i)) := by
    intro m s e recs hspan
    show buildHistory m s e recs = _
    simp only [buildHistory]
    by_cases h1 : m = 0
    · rw [if_pos h1]
    · rw [if_neg h1, if_neg (show ¬ m < ((List.range (e + 1 - s)).map
          (fun i => buildHistEntry recs s e (s + i))).length from by
        rw [List.length_map, List.length_range]; omega)]
  refine ⟨?_, ?_, ?_, ?_⟩
  · intro m s e recs hspan
    rw [hbuild m s e recs hspan]
    refine ⟨by simp, ?_⟩
    intro i hi
    simp
  · intro recs s e k hnone
    have hkey : monthHasKey recs s e k = false := by
      unfold monthHasKey
      rw [List.any_eq_false]
      intro r hr
      simp only [Bool.and_eq_true, decide_eq_true_eq]
      rintro ⟨⟨h1, h2⟩, h3⟩
      exact hnone r hr ⟨h1, h2, h3⟩
    unfold buildHistEntry
    rw [if_neg (by simp [hkey])]
    exact ⟨rfl, rfl⟩
  · intro recs s e k hpos hlt
    have hkey : monthHasKey recs s e k = true := by
      by_cases h1 : 0 < monthSentiCount recs s e k Senti.positive
      · exact monthHasKey_of_count_pos h1
      · by_cases h2 : 0 < monthSentiCount recs s e k Senti.negative
        · exact monthHasKey_of_count_pos h2
        · have h3 : 0 < monthSentiCount recs s e k Senti.neutral := by omega
          exact monthHasKey_of_count_pos h3
    simp only [buildHistEntry]
    rw [if_pos (show monthHasKey recs s e k = true from hkey)]
    rw [if_neg (show ¬ 5 ≤ monthSentiCount recs s e k Senti.positive +
        monthSentiCount recs s e k Senti.negative +
        monthSentiCount recs s e k Senti.neutral from by omega)]
    rw [if_pos hpos]
    exact ⟨rfl, _, rfl⟩
  · intro s
    have hspan : s + 5 + 1 - s ≤ 6 := by omega
    rw [hbuild 6 s (s + 5) [] hspan]
    refine ⟨by rw [List.length_map, List.length_range]; omega, ?_⟩
    intro i hi
    simp only [List.get_eq_getElem, List.getElem_map, List.getElem_range]
    unfold buildHistEntry
    rw [if_neg (by simp [monthHasKey])]

/-- Witness for the amended C9 on a concrete 6-month range `[3, 8]` with a
single record in month 3. -/
theorem C9_amended_witness :
    (getNpsHistory 6 (some (3, 8)) [ ⟨3, Senti.positive⟩ ]).length = 6 ∧
    (buildHistEntry [ ⟨3, Senti.positive⟩ ] 3 8 4).nps = none ∧
    (buildHistEntry [ ⟨3, Senti.positive⟩ ] 3 8 4).has_data = false ∧
    (buildHistEntry [ ⟨3, Senti.positive⟩ ] 3 8 3).has_sufficient_data = false := by
  refine ⟨(C9_amended_explicit_range_timeline_completeness.1 6 3 8 _ (by omega)).1, ?_, ?_, ?_⟩
  · exact (C9_amended_explicit_range_timeline_completeness.2.1 _ 3 8 4 (by decide)).1
  · exact (C9_amended_explicit_range_timeline_completeness.2.1 _ 3 8 4 (by decide)).2
  · exact (C9_amended_explicit_range_timeline_completeness.2.2.1 _ 3 8 3 (by decide) (by decide)).1

/-! ## C6 -/

theorem zconf_pos : (0:ℝ) < zconf := by norm_num [zconf]

theorem wilson_eq_wlb (p n : ℝ) (hn : 0 < n) (hp0 : 0 ≤ p) (hp1 : p ≤ 1) :
    wilson p n = wlb p (zconf * zconf / n) := by
  have hz : (0:ℝ) ≤ zconf := zconf_pos.le
  have hsqrt : zconf * Real.sqrt ((p * (1 - p) + zconf * zconf / (4 * n)) / n) =
      Real.sqrt (zconf * zconf / n * (p * (1 - p)) + (zconf * zconf / n) ^ 2 / 4) := by
    rw [show zconf * zconf / n * (p * (1 - p)) + (zconf * zconf / n) ^ 2 / 4 =
        (zconf * zconf) * ((p * (1 - p) + zconf * zconf / (4 * n)) / n) from by
      field_simp
      ring]
    rw [Real.sqrt_mul (mul_self_nonneg zconf), Real.sqrt_mul_self hz]
  unfold wilson wlb
  rw [hsqrt]
  have h2 : zconf * zconf / (2 * n) = zconf * zconf / n / 2 := by ring
  rw [h2]

-- basic facts about s = sqrt (a*q + a^2/4)
theorem sqrt_S_sq {p a : ℝ} (ha : 0 < a) (hp0 : 0 ≤ p) (hp1 : p ≤ 1) :
    Real.sqrt (a * (p * (1 - p)) + a ^ 2 / 4) ^ 2 = a * (p * (1 - p)) + a ^ 2 / 4 := by
  have hq : 0 ≤ p * (1 - p) := mul_nonneg hp0 (by linarith)
  have hS : 0 ≤ a * (p * (1 - p)) + a ^ 2 / 4 := by positivity
  exact Real.sq_sqrt hS

theorem sqrt_S_ge {p a : ℝ} (ha : 0 < a) (hp0 : 0 ≤ p) (hp1 : p ≤ 1) :
    a / 2 ≤ Real.sqrt (a * (p * (1 - p)) + a ^ 2 / 4) := by
  have hq : 0 ≤ p * (1 - p) := mul_nonneg hp0 (by linarith)
  have h1 : (a / 2) ^ 2 ≤ a * (p * (1 - p)) + a ^ 2 / 4 := by nlinarith
  calc a / 2 = Real.sqrt ((a / 2) ^ 2) := (Real.sqrt_sq (by linarith)).symm
    _ ≤ Real.sqrt (a * (p * (1 - p)) + a ^ 2 / 4) := Real.sqrt_le_sqrt h1

theorem wlb_strictMono_p {a : ℝ} (ha : 0 < a) (p₁ p₂ : ℝ)
    (hp0 : 0 ≤ p₁) (h12 : p₁ < p₂) (hp1 : p₂ ≤ 1) :
    wlb p₁ a < wlb p₂ a := by
  have hp₂0 : 0 ≤ p₂ := le_of_lt (lt_of_le_of_lt hp0 h12)
  have hp₁1 : p₁ ≤ 1 := le_of_lt (lt_of_lt_of_le h12 hp1)
  set s₁ := Real.sqrt (a * (p₁ * (1 - p₁)) + a ^ 2 / 4) with hs₁def
  set s₂ := Real.sqrt (a * (p₂ * (1 - p₂)) + a ^ 2 / 4) with hs₂def
  have hs₁sq := sqrt_S_sq ha hp0 hp₁1
  have hs₂sq := sqrt_S_sq ha hp₂0 hp1
  have hs₁ge := sqrt_S_ge ha hp0 hp₁1
  have hs₂ge := sqrt_S_ge ha hp₂0 hp1
  rw [← hs₁def] at hs₁sq hs₁ge
  rw [← hs₂def] at hs₂sq hs₂ge
  have hkey : s₂ - s₁ < p₂ - p₁ := by
    by_cases hq : p₂ * (1 - p₂) ≤ p₁ * (1 - p₁)
    · have hSle : a * (p₂ * (1 - p₂)) + a ^ 2 / 4 ≤ a * (p₁ * (1 - p₁)) + a ^ 2 / 4 := by
        nlinarith
      have : s₂ ≤ s₁ := by
        rw [hs₁def, hs₂def]
        exact Real.sqrt_le_sqrt hSle
      linarith
    · push_neg at hq
      have hsum : 0 < s₁ + s₂ := by linarith
      have hfact : (s₂ - s₁) * (s₂ + s₁) = a * (p₂ * (1 - p₂) - p₁ * (1 - p₁)) := by
        linear_combination hs₂sq - hs₁sq
      have h1mpp : 0 < 1 - p₁ - p₂ := by nlinarith
      have hppos : 0 < p₁ + p₂ := by nlinarith
      have hstep : (s₂ - s₁) * (s₂ + s₁) < (p₂ - p₁) * (s₂ + s₁) := by
        calc (s₂ - s₁) * (s₂ + s₁) = a * ((p₂ - p₁) * (1 - p₁ - p₂)) := by
              rw [hfact]; ring
          _ < a * (p₂ - p₁) := by
              nlinarith [mul_pos (mul_pos ha (sub_pos.mpr h12)) hppos]
          _ ≤ (s₂ + s₁) * (p₂ - p₁) := by
              have hsum2 : a ≤ s₂ + s₁ := by linarith
              exact mul_le_mul_of_nonneg_right hsum2 (by linarith)
          _ = (p₂ - p₁) * (s₂ + s₁) := by ring
      exact lt_of_mul_lt_mul_right (by linarith [hstep]) (le_of_lt hsum)
  unfold wlb
  rw [← hs₁def, ← hs₂def]
  rw [div_lt_div_iff_of_pos_right (by linarith : (0:ℝ) < 1 + a)]
  linarith

-- root characterization of the lower bound
theorem wlb_linear {p a : ℝ} (ha : 0 < a) :
    (1 + a) * wlb p a = p + a / 2 - Real.sqrt (a * (p * (1 - p)) + a ^ 2 / 4) := by
  unfold wlb
  rw [mul_comm, div_mul_cancel₀ _ (show (1 + a) ≠ 0 by linarith)]

theorem wlb_root {p a : ℝ} (ha : 0 < a) (hp0 : 0 ≤ p) (hp1 : p ≤ 1) :
    (1 + a) * (wlb p a) ^ 2 - (2 * p + a) * wlb p a + p ^ 2 = 0 := by
  have hX := wlb_linear (p := p) ha
  have hs2 := sqrt_S_sq (p := p) ha hp0 hp1
  have hne : (1 + a) ≠ 0 := by linarith
  have key : (1 + a) * ((1 + a) * (wlb p a) ^ 2 - (2 * p + a) * wlb p a + p ^ 2) = 0 := by
    linear_combination ((1 + a) * wlb p a + (p + a / 2 - Real.sqrt (a * (p * (1 - p)) + a ^ 2 / 4)) - (2 * p + a)) * hX + hs2
  rcases mul_eq_zero.mp key with h | h
  · exact absurd h hne
  · exact h

theorem wlb_pos {p a : ℝ} (ha : 0 < a) (hp0 : 0 < p) (hp1 : p ≤ 1) :
    0 < wlb p a := by
  have hX := wlb_linear (p := p) ha
  have hs2 := sqrt_S_sq (p := p) ha hp0.le hp1
  have hsnn : 0 ≤ Real.sqrt (a * (p * (1 - p)) + a ^ 2 / 4) := Real.sqrt_nonneg _
  have hq : 0 ≤ p * (1 - p) := mul_nonneg hp0.le (by linarith)
  have hS : 0 ≤ a * (p * (1 - p)) + a ^ 2 / 4 := by positivity
  have hSlt : a * (p * (1 - p)) + a ^ 2 / 4 < (p + a / 2) ^ 2 := by
    nlinarith [mul_pos hp0 hp0]
  have hslt : Real.sqrt (a * (p * (1 - p)) + a ^ 2 / 4) < p + a / 2 :=
    calc Real.sqrt (a * (p * (1 - p)) + a ^ 2 / 4)
        < Real.sqrt ((p + a / 2) ^ 2) := Real.sqrt_lt_sqrt hS hSlt
      _ = p + a / 2 := Real.sqrt_sq (by linarith)
  have hpos : 0 < (1 + a) * wlb p a := by rw [hX]; linarith
  have h1a : (0:ℝ) < 1 + a := by linarith
  exact lt_of_mul_lt_mul_left (by simpa using hpos) h1a.le

theorem wlb_lt_one {p a : ℝ} (ha : 0 < a) (hp0 : 0 ≤ p) (hp1 : p ≤ 1) :
    wlb p a < 1 := by
  have hX := wlb_linear (p := p) ha
  have hsnn : 0 ≤ Real.sqrt (a * (p * (1 - p)) + a ^ 2 / 4) := Real.sqrt_nonneg _
  have : (1 + a) * wlb p a < (1 + a) * 1 := by rw [hX]; linarith
  exact lt_of_mul_lt_mul_left this (by linarith)

-- s dominates a|p - 1/2|, giving L ≤ p ≤ U
theorem sqrt_S_ge_abs {p a : ℝ} (ha : 0 < a) (hp0 : 0 ≤ p) (hp1 : p ≤ 1) :
    a * (1 / 2 - p) ≤ Real.sqrt (a * (p * (1 - p)) + a ^ 2 / 4) ∧
    a * (p - 1 / 2) ≤ Real.sqrt (a * (p * (1 - p)) + a ^ 2 / 4) := by
  have hs2 := sqrt_S_sq (p := p) ha hp0 hp1
  have hsge := sqrt_S_ge (p := p) ha hp0 hp1
  have hq : 0 ≤ p * (1 - p) := mul_nonneg hp0 (by linarith)
  set s := Real.sqrt (a * (p * (1 - p)) + a ^ 2 / 4) with hsdef
  have hdiff : s ^ 2 - (a * (p - 1 / 2)) ^ 2 = a * (p * (1 - p)) * (1 + a) := by
    rw [hs2]; ring
  have hfac : 0 ≤ a * (p * (1 - p)) * (1 + a) := by positivity
  constructor
  · nlinarith [sq_nonneg (s + a * (1 / 2 - p)), sq_nonneg (s - a * (1 / 2 - p))]
  · nlinarith [sq_nonneg (s + a * (p - 1 / 2)), sq_nonneg (s - a * (p - 1 / 2))]

theorem wlb_le_p {p a : ℝ} (ha : 0 < a) (hp0 : 0 ≤ p) (hp1 : p ≤ 1) :
    wlb p a ≤ p := by
  have hX := wlb_linear (p := p) ha
  have habs := (sqrt_S_ge_abs (p := p) ha hp0 hp1).1
  have : (1 + a) * wlb p a ≤ (1 + a) * p := by rw [hX]; linarith
  exact le_of_mul_le_mul_left this (by linarith)

theorem wub_linear {p a : ℝ} (ha : 0 < a) :
    (1 + a) * wub p a = p + a / 2 + Real.sqrt (a * (p * (1 - p)) + a ^ 2 / 4) := by
  unfold wub
  rw [mul_comm, div_mul_cancel₀ _ (show (1 + a) ≠ 0 by linarith)]

theorem p_le_wub {p a : ℝ} (ha : 0 < a) (hp0 : 0 ≤ p) (hp1 : p ≤ 1) :
    p ≤ wub p a := by
  have hX := wub_linear (p := p) ha
  have habs := (sqrt_S_ge_abs (p := p) ha hp0 hp1).2
  have : (1 + a) * p ≤ (1 + a) * wub p a := by rw [hX]; linarith
  exact le_of_mul_le_mul_left this (by linarith)

theorem vieta_sum {p a : ℝ} (ha : 0 < a) :
    (1 + a) * (wlb p a + wub p a) = 2 * p + a := by
  have hXL := wlb_linear (p := p) ha
  have hXU := wub_linear (p := p) ha
  linear_combination hXL + hXU

theorem vieta_prod {p a : ℝ} (ha : 0 < a) (hp0 : 0 ≤ p) (hp1 : p ≤ 1) :
    (1 + a) * (wlb p a * wub p a) = p ^ 2 := by
  have hXL := wlb_linear (p := p) ha
  have hXU := wub_linear (p := p) ha
  have hs2 := sqrt_S_sq (p := p) ha hp0 hp1
  have hne : (1 + a) ≠ 0 := by linarith
  have h1 : ((1 + a) * wlb p a) * ((1 + a) * wub p a) = p ^ 2 * (1 + a) := by
    rw [hXL, hXU]
    linear_combination (-1 : ℝ) * hs2
  refine mul_left_cancel₀ hne ?_
  linear_combination h1

theorem wlb_strictAnti_a {p a₁ a₂ : ℝ} (hp0 : 0 < p) (hp1 : p ≤ 1)
    (ha₂ : 0 < a₂) (h12 : a₂ < a₁) : wlb p a₁ < wlb p a₂ := by
  have ha₁ : 0 < a₁ := lt_trans ha₂ h12
  have hroot1 := wlb_root (p := p) ha₁ hp0.le hp1
  have hL₁pos := wlb_pos (p := p) ha₁ hp0 hp1
  have hL₁lt1 := wlb_lt_one (p := p) ha₁ hp0.le hp1
  have hL₁p := wlb_le_p (p := p) ha₁ hp0.le hp1
  have hpU₂ := p_le_wub (p := p) ha₂ hp0.le hp1
  have hsum := vieta_sum (p := p) ha₂
  have hprod := vieta_prod (p := p) ha₂ hp0.le hp1
  have hphi : (1 + a₂) * (wlb p a₁) ^ 2 - (2 * p + a₂) * wlb p a₁ + p ^ 2 =
      (a₁ - a₂) * (wlb p a₁ * (1 - wlb p a₁)) := by
    linear_combination hroot1
  have hphi_pos : 0 < (1 + a₂) * (wlb p a₁) ^ 2 - (2 * p + a₂) * wlb p a₁ + p ^ 2 := by
    rw [hphi]
    exact mul_pos (by linarith) (mul_pos hL₁pos (by linarith))
  by_contra hcon
  push_neg at hcon
  have hprod_nn : 0 ≤ (wlb p a₁ - wlb p a₂) * (wub p a₂ - wlb p a₁) :=
    mul_nonneg (by linarith) (by linarith)
  have hzero : (1 + a₂) * (wlb p a₁) ^ 2 - (2 * p + a₂) * wlb p a₁ + p ^ 2 +
      (1 + a₂) * ((wlb p a₁ - wlb p a₂) * (wub p a₂ - wlb p a₁)) = 0 := by
    linear_combination (wlb p a₁) * hsum - hprod
  nlinarith [mul_nonneg (show (0:ℝ) ≤ 1 + a₂ by linarith) hprod_nn]

/-- C6: monotonicity of the Wilson score lower bound as the route-ranking code
computes it (`p = positive/n`, `z = 1.96`): for fixed sample size `n > 0`,
strictly increasing the positive proportion `p` (within `[0,1]`) strictly
increases the bound; for fixed `p` with `0 < p ≤ 1`, strictly increasing `n`
strictly increases the bound. -/
theorem C6_wilson_monotonicity :
    (∀ (n : ℕ) (p₁ p₂ : ℝ), 0 < n → 0 ≤ p₁ → p₁ < p₂ → p₂ ≤ 1 →
        wilson p₁ n < wilson p₂ n) ∧
    (∀ (n₁ n₂ : ℕ) (p : ℝ), 0 < n₁ → n₁ < n₂ → 0 < p → p ≤ 1 →
        wilson p n₁ < wilson p n₂) := by
  have hz2 : (0:ℝ) < zconf * zconf := mul_pos zconf_pos zconf_pos
  constructor
  · intro n p₁ p₂ hn hp0 h12 hp1
    have hnR : (0:ℝ) < n := by exact_mod_cast hn
    have ha : 0 < zconf * zconf / (n:ℝ) := div_pos hz2 hnR
    rw [wilson_eq_wlb p₁ n hnR hp0 (by linarith),
      wilson_eq_wlb p₂ n hnR (by linarith) hp1]
    exact wlb_strictMono_p ha p₁ p₂ hp0 h12 hp1
  · intro n₁ n₂ p hn1 h12 hp0 hp1
    have hn1R : (0:ℝ) < n₁ := by exact_mod_cast hn1
    have hn2R : (0:ℝ) < n₂ := by exact_mod_cast lt_trans hn1 h12
    have hlt : (n₁:ℝ) < n₂ := by exact_mod_cast h12
    have ha2 : 0 < zconf * zconf / (n₂:ℝ) := div_pos hz2 hn2R
    have haa : zconf * zconf / (n₂:ℝ) < zconf * zconf / (n₁:ℝ) :=
      div_lt_div_of_pos_left hz2 hn1R hlt
    rw [wilson_eq_wlb p n₁ hn1R hp0.le hp1, wilson_eq_wlb p n₂ hn2R hp0.le hp1]
    exact wlb_strictAnti_a hp0 hp1 ha2 haa

/-- Witness for C6 at `n = 10 < 20`, `p = 1/2 < 3/4`. -/
theorem C6_witness :
    wilson (1/2) ((10:ℕ):ℝ) < wilson (3/4) ((10:ℕ):ℝ) ∧
    wilson (1/2) ((10:ℕ):ℝ) < wilson (1/2) ((20:ℕ):ℝ) :=
  ⟨C6_wilson_monotonicity.1 10 (1/2) (3/4) (by norm_num) (by norm_num) (by norm_num)
      (by norm_num),
    C6_wilson_monotonicity.2 10 20 (1/2) (by norm_num) (by norm_num) (by norm_num)
      (by norm_num)⟩
